import Mathlib

/-!
Verification development for the JSON-Schema normalizer / AST builder core
(`src/json-schema/normalizer.ts`).

Schema nodes are modelled as records of optional fields (one per JSON Schema
keyword the core consults).  Node identity is modelled by natural-number ids
into a graph; JavaScript object identity corresponds to id equality.  Machine
numbers (`minItems`/`maxItems`) are modelled as `Int`.  Fallible code returns
`Except String`.  Functions missing from `src/` (utils, type classifier) are
modelled from the spec and carry a doc comment saying so.
-/

/-- A JSON literal value (members of `enum`, `const`). -/
inductive Lit where
  | nul
  | bool (b : Bool)
  | num (n : Int)
  | str (s : String)
deriving DecidableEq, Repr

/-- The `type` keyword: either a bare scalar type name or an array of names. -/
inductive TypeF where
  | one (t : String)
  | many (ts : List String)
deriving DecidableEq, Repr

/-- Shape of the `enum` keyword: an ordered sequence, or (legacy, invalid for
named enums) a keyed map. -/
inductive EnumShape where
  | arr (vs : List Lit)
  | obj (kvs : List (String × Lit))
deriving DecidableEq, Repr

/-- The `required` keyword: a boolean or a list of property names. -/
inductive ReqF where
  | rbool (b : Bool)
  | rlist (ks : List String)
deriving DecidableEq, Repr

/-- A sub-schema value: a reference to a graph node (JS object identity = id),
or a boolean schema. -/
inductive SVal where
  | node (id : Nat)
  | bool (b : Bool)
deriving DecidableEq, Repr

/-- `additionalProperties` / `additionalItems`: boolean or a schema. -/
inductive APField where
  | abool (b : Bool)
  | aschema (v : SVal)
deriving DecidableEq, Repr

/-- The `items` keyword: a single schema or a positional list. -/
inductive ItemsF where
  | single (v : SVal)
  | list (vs : List SVal)
deriving DecidableEq, Repr

/-- The `extends` keyword: `null`, a single schema, or an array. -/
inductive ExtV where
  | nullv
  | single (v : SVal)
  | list (vs : List SVal)
deriving DecidableEq, Repr

/-- A schema node: a record with one optional field per JSON Schema keyword
this core consults (`LinkedJSONSchema`).  `dollarId` models `$id`, `defs`
models `$defs`. -/
structure SNode where
  type : Option TypeF := none
  enum? : Option EnumShape := none
  const? : Option Lit := none
  properties : Option (List (String × SVal)) := none
  patternProperties : Option (List (String × SVal)) := none
  additionalProperties : Option APField := none
  items : Option ItemsF := none
  additionalItems : Option APField := none
  required : Option ReqF := none
  minItems : Option Int := none
  maxItems : Option Int := none
  id : Option String := none
  dollarId : Option String := none
  title : Option String := none
  description : Option String := none
  deprecated : Option Bool := none
  allOf : Option (List SVal) := none
  anyOf : Option (List SVal) := none
  oneOf : Option (List SVal) := none
  extendsF : Option ExtV := none
  defs : Option (List (String × SVal)) := none
  tsType : Option String := none
  tsEnumNames : Option (List String) := none
deriving DecidableEq, Repr

instance : Inhabited SNode := ⟨{}⟩

/-- A schema graph: node ids index this list.  Node 0 is the root of the
linked document. -/
structure Graph where
  nodes : List SNode
deriving DecidableEq, Repr

def Graph.get (g : Graph) (i : Nat) : SNode := g.nodes.getD i {}

/-- `hasType` from the source: `schema.type === type` or the `type` array
includes it. -/
def hasType (n : SNode) (t : String) : Bool :=
  match n.type with
  | some (.one s) => s = t
  | some (.many ts) => ts.contains t
  | none => false

/-- `isObjectType` from the source. -/
def isObjectType (n : SNode) : Bool :=
  n.properties.isSome || hasType n "object" || hasType n "any"

/-- `isArrayType` from the source. -/
def isArrayType (n : SNode) : Bool :=
  n.items.isSome || hasType n "array" || hasType n "any"

/-- JS truthiness of an optional string (`undefined` and `""` are falsy). -/
def strTruthy : Option String → Bool
  | some s => s ≠ ""
  | none => false

/-- Modelled from the spec: `isSchemaLike` (utils, not under `src/`).  In this
embedding every `SNode` is a schema object; primitives and containers are not
`SNode`s, so the predicate is constantly true here. -/
def isSchemaLike (_ : SNode) : Bool := true

/-- One step of escaping a closing block comment: the first `*/` becomes
`*\/`, scanning left to right (JS `replaceAll`-style on the char list). -/
def escL : List Char → List Char
  | [] => []
  | [a] => [a]
  | a :: b :: rest =>
    if a = '*' ∧ b = '/' then '*' :: '\\' :: '/' :: escL rest
    else a :: escL (b :: rest)

/-- Modelled from the spec: `escapeBlockComment` (utils, not under `src/`)
escapes characters in `description` that would terminate a documentation
comment block early, i.e. rewrites every `*/` to `*\/`. -/
def escS (s : String) : String := ⟨escL s.data⟩

/-- Modelled from the spec: `appendToDescription` (utils, not under `src/`)
appends human-readable annotations to a description, separated by blank
lines. -/
def appendToDescription (desc : Option String) (comments : List String) : String :=
  String.intercalate "\n\n" ((match desc with | some d => [d] | none => []) ++ comments)

/- ### The normalizer rules, in source order.
Each rule only reads and writes fields of the node it is applied to, so the
per-node pipeline below is exactly what one `traverse` walk per rule does to
every visited node. -/

/-- Rule 1: `Remove type=["null"] if enum=[null]`. -/
def ruleRemoveNullType (n : SNode) : SNode :=
  match n.enum?, n.type with
  | some (.arr vs), some (.many ts) =>
    if vs.contains Lit.nul ∧ ts.contains "null" then
      { n with type := some (.many (ts.filter (fun t => t ≠ "null"))) }
    else n
  | _, _ => n

/-- Rule 2: `Destructure unary types`. -/
def ruleDestructureUnary (n : SNode) : SNode :=
  match n.type with
  | some (.many [t]) => { n with type := some (.one t) }
  | _ => n

/-- Rule 3: `Add empty required property if none is defined`. -/
def ruleRequiredDefault (n : SNode) : SNode :=
  if isObjectType n ∧ n.required = none then { n with required := some (.rlist []) }
  else n

/-- Rule 4: `Transform required=false to required=[]`. -/
def ruleRequiredFalse (n : SNode) : SNode :=
  if n.required = some (.rbool false) then { n with required := some (.rlist []) }
  else n

/-- Rule 5: `Default additionalProperties`. -/
def ruleDefaultAP (n : SNode) : SNode :=
  if isObjectType n ∧ n.additionalProperties = none ∧ n.patternProperties = none then
    { n with additionalProperties := some (.abool true) }
  else n

/-- Rule 6: `Transform id to $id`.  Throws when a truthy `id` and a truthy
`$id` differ; otherwise moves a truthy `id` into `$id`. -/
def ruleIdToDollarId (fileName : String) (n : SNode) : Except String SNode :=
  if ¬ isSchemaLike n then .ok n
  else if strTruthy n.id ∧ strTruthy n.dollarId ∧ n.id ≠ n.dollarId then
    .error ("Schema must define either id or $id, not both. Given id="
      ++ (n.id.getD "") ++ ", $id=" ++ (n.dollarId.getD "") ++ " in " ++ fileName)
  else if strTruthy n.id then .ok { n with dollarId := n.id, id := none }
  else .ok n

/-- Rule 7: `Escape closing JSDoc comment`. -/
def ruleEscape (n : SNode) : SNode :=
  match n.description with
  | some d => { n with description := some (escS d) }
  | none => n

/-- Rule 8: `Add JSDoc comments for minItems and maxItems`. -/
def ruleJSDocItems (n : SNode) : SNode :=
  if ¬ isArrayType n then n
  else
    let comments :=
      (match n.minItems with | some v => ["@minItems " ++ toString v] | none => [])
      ++ (match n.maxItems with | some v => ["@maxItems " ++ toString v] | none => [])
    if comments ≠ [] then { n with description := some (appendToDescription n.description comments) }
    else n

/-- Rule 9: `Optionally remove maxItems and minItems` (unconditional in this
code). -/
def ruleRemoveMinMax (n : SNode) : SNode :=
  if ¬ isArrayType n then n
  else { n with minItems := none, maxItems := none }

/-- Rule 10: `Normalize schema.minItems` (default to 0). -/
def ruleNormalizeMinItems (n : SNode) : SNode :=
  if ¬ isArrayType n then n
  else { n with minItems := some (n.minItems.getD 0) }

/-- Rule 11: `Remove maxItems if it is big enough to likely cause OOMs`.
When `minItems` is absent the JS subtraction is `NaN > 20 = false`. -/
def ruleRemoveBigMaxItems (n : SNode) : SNode :=
  if ¬ isArrayType n then n
  else
    match n.maxItems, n.minItems with
    | some mx, some mn => if mx - mn > 20 then { n with maxItems := none } else n
    | _, _ => n

/-- The tuple length `maxItems || minItems || 0` (JS truthiness: a number is
falsy exactly when it is 0; an absent field is falsy). -/
def jsTupleLen (maxI minI : Option Int) : Int :=
  match maxI with
  | some m => if m ≠ 0 then m else (match minI with | some k => if k ≠ 0 then k else 0 | none => 0)
  | none => (match minI with | some k => if k ≠ 0 then k else 0 | none => 0)

/-- JS truthiness of a schema value: a boolean schema `false` is the only
falsy schema value (an object is always truthy). -/
def svTruthy : SVal → Bool
  | .bool b => b
  | .node _ => true

/-- Rule 12: `Normalize schema.items`.  When `schema.items` is truthy and not
an array (`schema.items && !Array.isArray(schema.items)`), replicates the
single item schema into a positional list of length
`maxItems || minItems || 0`, sets `additionalItems` when there is no upper
bound, then truncates an over-long positional list to `maxItems` entries.
`Array(len)` throws a `RangeError` on a negative length. -/
def ruleNormalizeItems (n : SNode) : Except String SNode :=
  let maxI := n.maxItems
  let minI := n.minItems
  let hasMax : Bool := match maxI with | some m => decide (m ≥ 0) | none => false
  let hasMin : Bool := match minI with | some m => decide (m > 0) | none => false
  let step1 : Except String SNode :=
    match n.items with
    | some (.single it) =>
      if svTruthy it && (hasMax || hasMin) then
        let len := jsTupleLen maxI minI
        if len < 0 then .error "Invalid array length"
        else
          .ok { n with
                additionalItems := if hasMax then n.additionalItems else some (.aschema it),
                items := some (.list (List.replicate len.toNat it)) }
      else .ok n
    | _ => .ok n
  match step1 with
  | .error e => .error e
  | .ok m =>
    match m.items with
    | some (.list l) =>
      if hasMax && (match maxI with | some mx => decide (mx < (l.length : Int)) | none => false) then
        .ok { m with items := some (.list (l.take (maxI.getD 0).toNat)) }
      else .ok m
    | _ => .ok m

/-- Rule 13: `Remove extends, if it is empty`. -/
def ruleRemoveEmptyExtends (n : SNode) : SNode :=
  match n.extendsF with
  | none => n
  | some .nullv => { n with extendsF := none }
  | some (.list []) => { n with extendsF := none }
  | some _ => n

/-- Rule 14: `Make extends always an array, if it is defined`. -/
def ruleExtendsArray (n : SNode) : SNode :=
  match n.extendsF with
  | some (.single v) => { n with extendsF := some (.list [v]) }
  | _ => n

/-- Rule 15: `Transform const to singleton enum`. -/
def ruleConstToEnum (n : SNode) : SNode :=
  match n.const? with
  | some c => { n with enum? := some (.arr [c]), const? := none }
  | none => n

/-- The full normalization pipeline applied to one node, rules in the fixed
source order.  `normalize` runs one full tree walk per rule; since every rule
only touches the visited node's own fields, the effect on each node of the
whole pipeline is this composition. -/
def pipelineNode (fileName : String) (n : SNode) : Except String SNode :=
  match ruleIdToDollarId fileName
      (ruleDefaultAP (ruleRequiredFalse (ruleRequiredDefault
        (ruleDestructureUnary (ruleRemoveNullType n))))) with
  | .error e => .error e
  | .ok a =>
    match ruleNormalizeItems (ruleRemoveBigMaxItems (ruleNormalizeMinItems
        (ruleRemoveMinMax (ruleJSDocItems (ruleEscape a))))) with
    | .error e => .error e
    | .ok b => .ok (ruleConstToEnum (ruleExtendsArray (ruleRemoveEmptyExtends b)))

/- ### Definitions Collector (`getDefinitions`, `getDefinitionsMemoized`). -/

/-- JS object-spread merge `{...a, ...b}`: keys of `b` override those of `a`,
key order is `a`'s keys followed by `b`'s new keys. -/
def mergeDefs (a b : List (String × SVal)) : List (String × SVal) :=
  (a.map (fun p => match b.find? (fun q => q.1 = p.1) with
                   | some q => (p.1, q.2)
                   | none => p))
  ++ b.filter (fun q => ¬ a.any (fun p => p.1 = q.1))

/-- All sub-schema values stored under a node's keys, in field order.
`getDefinitions` recurses through every value reachable from `Object.keys`;
primitive-valued keys contribute nothing, and the intermediate container
objects (the `properties` map, keyword arrays, …) are each reachable from
exactly one node, so flattening them into their schema-valued leaves is
observationally equal. -/
def childSVals (n : SNode) : List SVal :=
  (n.properties.getD []).map (·.2)
  ++ (n.patternProperties.getD []).map (·.2)
  ++ (match n.additionalProperties with | some (.aschema v) => [v] | _ => [])
  ++ (match n.items with | some (.single v) => [v] | some (.list l) => l | none => [])
  ++ (match n.additionalItems with | some (.aschema v) => [v] | _ => [])
  ++ n.allOf.getD [] ++ n.anyOf.getD [] ++ n.oneOf.getD []
  ++ (match n.extendsF with | some (.single v) => [v] | some (.list l) => l | _ => [])
  ++ (n.defs.getD []).map (·.2)

mutual
/-- `getDefinitions(schema, isSchema, processed)`: merges in the node's own
`$defs` only when `isSchema` is true (every recursive call passes `false`),
returns the empty map on a revisited node, and otherwise folds the
contributions of every reachable value.  `fuel` bounds the node-recursion
depth (the visited set makes the source terminate; fuel larger than the graph
is never exhausted). -/
def getDefsSV (g : Graph) (fuel : Nat) (v : SVal) (isSchema : Bool)
    (visited : List Nat) : List (String × SVal) × List Nat :=
  match fuel, v with
  | _, .bool _ => ([], visited)
  | 0, .node _ => ([], visited)
  | fuel' + 1, .node i =>
    if i ∈ visited then ([], visited)
    else
      let n := g.get i
      let base := if isSchema && n.defs.isSome then n.defs.getD [] else []
      let res := getDefsList g fuel' (childSVals n) (i :: visited)
      (mergeDefs base res.1, res.2)
termination_by structural fuel

/-- The `Object.keys(...).reduce` fold over a node's values: left fold of
spread-merges, every element visited with `isSchema = false`.  (Fuel is also
consumed per list element; it is an artifact of the embedding, never
exhausted when chosen larger than the walk.) -/
def getDefsList (g : Graph) (fuel : Nat) (vs : List SVal)
    (visited : List Nat) : List (String × SVal) × List Nat :=
  match fuel, vs with
  | _, [] => ([], visited)
  | 0, _ :: _ => ([], visited)
  | fuel' + 1, v :: rest =>
    let r1 := getDefsSV g fuel' v false visited
    let r2 := getDefsList g fuel' rest r1.2
    (mergeDefs r1.1 r2.1, r2.2)
termination_by structural fuel
end

/-- `memoize(getDefinitions)`: the lodash memoizer keys the cache on the
first argument (the root node's identity). -/
def getDefsMemo (g : Graph) (nid : Nat) (fuel : Nat)
    (cache : List (Nat × List (String × SVal))) :
    List (String × SVal) × List (Nat × List (String × SVal)) :=
  match cache.find? (fun p => p.1 = nid) with
  | some p => (p.2, cache)
  | none =>
    let d := (getDefsSV g fuel (.node nid) true []).1
    (d, (nid, d) :: cache)

/- ### AST data model (`AST` from types.ts, with object identity as arena
slot ids). -/

/-- The structural category tags (`SchemaType`). -/
inductive SchemaType where
  | ALL_OF | ANY | ANY_OF | BOOLEAN | CUSTOM_TYPE | NAMED_ENUM | NAMED_SCHEMA
  | NEVER | NULL | NUMBER | OBJECT | ONE_OF | REFERENCE | STRING
  | TYPED_ARRAY | UNION | UNNAMED_ENUM | UNNAMED_SCHEMA | UNTYPED_ARRAY
deriving DecidableEq, Repr

/-- The AST node categories. -/
inductive ASTKind where
  | ANY | NEVER | LITERAL | INTERSECTION | UNION | BOOLEAN | CUSTOM_TYPE
  | ENUM | INTERFACE | NULL | NUMBER | OBJECT | STRING | TUPLE | ARRAY
deriving DecidableEq, Repr

/-- A record member (`TInterfaceParam`); `ast` is an arena slot id. -/
structure Member where
  ast : Nat
  isPatternProperty : Bool
  isRequired : Bool
  isUnreachableDefinition : Bool
  keyName : String
deriving DecidableEq, Repr

/-- An enum entry (`TEnumParam`): value AST paired with its display-name
hint (absent when the hints list is shorter than the values list). -/
structure EnumMember where
  ast : Nat
  keyName : Option String
deriving DecidableEq, Repr

/-- Category-specific `params` payloads.  Child AST references are arena
slot ids (JS object references). -/
inductive Params where
  | pnone
  | slots (l : List Nat)
  | slot (s : Nat)
  | lit (v : Lit)
  | custom (s : String)
  | enums (l : List EnumMember)
  | members (l : List Member)
deriving DecidableEq, Repr

/-- An AST node's contents. -/
structure ASTData where
  kind : ASTKind
  keyName : Option String := none
  standaloneName : Option String := none
  comment : Option String := none
  deprecated : Option Bool := none
  params : Params := .pnone
  spreadParam : Option Nat := none
  minItems : Option Int := none
  maxItems : Option Int := none
  superTypes : List Nat := []
deriving DecidableEq, Repr

/-- The build state: the arena of AST objects (`none` = the empty placeholder
inserted before computing a node's contents), the build cache keyed by
(node identity, category), the Used-Names set, the memoized definitions
cache, and the id supply for schema objects created during the build. -/
structure PState where
  arena : List (Option ASTData)
  cache : List ((Nat × SchemaType) × Nat)
  usedNames : List String
  defsCache : List (Nat × List (String × SVal))
  nextId : Nat
deriving DecidableEq, Repr

/-- The module-level constant `T_ANY` (types.ts, not under `src/`): the
shared `{type: "ANY"}` object, pre-seeded at arena slot 0. -/
def tAny : ASTData := { kind := .ANY }

/-- The module-level constant `T_ANY_ADDITIONAL_PROPERTIES` (types.ts, not
under `src/`): the shared any-typed catch-all, pre-seeded at arena slot 1. -/
def tAnyAddl : ASTData := { kind := .ANY, keyName := some "[k: string]" }

/-- The state at the start of one top-level build: empty cache, empty
Used-Names set, the two shared constants in the arena, fresh ids starting
after the graph's nodes. -/
def initState (g : Graph) : PState :=
  { arena := [some tAny, some tAnyAddl], cache := [], usedNames := [],
    defsCache := [], nextId := g.nodes.length }

def lookupCache (c : List ((Nat × SchemaType) × Nat)) (k : Nat × SchemaType) : Option Nat :=
  (c.find? (fun p => p.1 = k)).map (·.2)

/-- Allocate a fresh arena slot (a new JS object identity). -/
def allocSlot (d : Option ASTData) (st : PState) : Nat × PState :=
  (st.arena.length, { st with arena := st.arena ++ [d] })

/-- `Object.assign(ast, contents)`: fill slot `i` in place. -/
def setSlot (i : Nat) (d : ASTData) (st : PState) : PState :=
  { st with arena := st.arena.set i (some d) }

/-- `ast.params = ...` on an already-filled intersection slot. -/
def setParams (i : Nat) (l : List Nat) (st : PState) : PState :=
  match st.arena.getD i none with
  | some d => setSlot i { d with params := .slots l } st
  | none => st

/-- `ast.comment = ast.comment ? ast.comment + "\n\n" + c : c` — appending a
referenced-by comment onto a (possibly shared) AST object.  A transient write
onto a still-empty placeholder is overwritten wholesale by the later
`Object.assign` fill, so it is modelled as a no-op. -/
def mutateComment (i : Nat) (c : String) (st : PState) : PState :=
  match st.arena.getD i none with
  | some d =>
    let newC := match d.comment with
      | some old => if old ≠ "" then old ++ "\n\n" ++ c else c
      | none => c
    setSlot i { d with comment := some newC } st
  | none => st

/-- Draw a fresh schema-object identity (an object literal created during the
build: the synthetic intersection wrapper, stripped copies, union members). -/
def freshId (st : PState) : Nat × PState :=
  (st.nextId, { st with nextId := st.nextId + 1 })

/-- A schema object together with its identity. -/
structure SRef where
  id : Nat
  node : SNode
deriving DecidableEq, Repr

/- ### Name allocation and classification. -/

/-- Try `base1`, `base2`, … until a name unused so far is found. -/
def genFreshName (base : String) (used : List String) : String :=
  match (List.range (used.length + 1)).find?
      (fun i => ¬ used.contains (base ++ toString (i + 1))) with
  | some i => base ++ toString (i + 1)
  | none => base ++ toString (used.length + 1)

/-- Modelled from the spec: `generateName` (utils, not under `src/`).  A
candidate name is disambiguated against the Used-Names Set (numeric suffixes)
before being accepted and added to it; sanitization (`toSafeString`) is
modelled as the identity. -/
def generateName (nm : String) (used : List String) : String × List String :=
  if used.contains nm then
    let fresh := genFreshName nm used
    (fresh, fresh :: used)
  else (nm, nm :: used)

/-- The name candidate `schema.title || schema.$id || keyNameFromDefinition`
(JS `||`: empty strings are skipped; no truthy candidate means no name). -/
def stdCandidate (n : SNode) (defKey : Option String) : Option String :=
  if strTruthy n.title then n.title
  else if strTruthy n.dollarId then n.dollarId
  else if strTruthy defKey then defKey
  else none

/-- `standaloneName(schema, keyNameFromDefinition, usedNames)`: generate a
name from the first truthy candidate, mutating the Used-Names set. -/
def stdNameWith (n : SNode) (defKey : Option String) (used : List String) :
    Option String × List String :=
  match stdCandidate n defKey with
  | some nm => let r := generateName nm used; (some r.1, r.2)
  | none => (none, used)

/-- `standaloneName` acting on the build state. -/
def stdNameSt (n : SNode) (defKey : Option String) (st : PState) :
    Option String × PState :=
  let r := stdNameWith n defKey st.usedNames
  (r.1, { st with usedNames := r.2 })

/-- Primitive type-name tag. -/
def primTag : String → SchemaType
  | "string" => .STRING
  | "number" => .NUMBER
  | "integer" => .NUMBER
  | "boolean" => .BOOLEAN
  | "null" => .NULL
  | "any" => .ANY
  | "object" => .UNNAMED_SCHEMA
  | "array" => .UNTYPED_ARRAY
  | _ => .ANY

/-- Modelled from the spec: the Type Classifier `typesOfSchema` (types-of.ts,
not under `src/`).  Shape keywords each contribute a tag (`enum` with/without
display-name hints, `allOf`, `anyOf`, `oneOf`, object/record shape, `items`);
a record tag is named iff `$id` is present; with no shape keyword the
declared `type` decides: one primitive name yields its scalar tag, a
multi-valued `type` yields the union tag, no `type` yields ANY. -/
def typesOfSchema (n : SNode) : List SchemaType :=
  let shaped : List SchemaType :=
    (if n.tsType.isSome then [SchemaType.CUSTOM_TYPE] else [])
    ++ (if n.enum?.isSome && n.tsEnumNames.isSome then [SchemaType.NAMED_ENUM] else [])
    ++ (if n.enum?.isSome && n.tsEnumNames.isNone then [SchemaType.UNNAMED_ENUM] else [])
    ++ (if n.allOf.isSome then [SchemaType.ALL_OF] else [])
    ++ (if n.anyOf.isSome then [SchemaType.ANY_OF] else [])
    ++ (if n.oneOf.isSome then [SchemaType.ONE_OF] else [])
    ++ (if n.properties.isSome || hasType n "object" then
          [if n.dollarId.isSome then SchemaType.NAMED_SCHEMA else SchemaType.UNNAMED_SCHEMA]
        else [])
    ++ (if n.items.isSome then [SchemaType.TYPED_ARRAY]
        else if hasType n "array" then [SchemaType.UNTYPED_ARRAY] else [])
  if shaped ≠ [] then shaped
  else
    match n.type with
    | none => [SchemaType.ANY]
    | some (.one t) => [primTag t]
    | some (.many _) => [SchemaType.UNION]

/-- Modelled from the spec: `maybeStripNameHints` (utils, not under `src/`).
Description, id and title are hoisted to the parent intersection node, so the
copy handed to each per-category child carries none of them. -/
def maybeStripNameHints (n : SNode) : SNode :=
  { n with title := none, dollarId := none, description := none }

/-- Modelled from the spec: `maybeStripDefault` (utils, not under `src/`).
The spec says nothing about default-stripping and this embedding does not
track a `default` field, so it is the identity. -/
def maybeStripDefault (n : SNode) : SNode := n

/-- The fresh member object `{...omit(schema, "$id", "description", "title"),
type}` built for each declared type name in the UNION case. -/
def unionMemberNode (n : SNode) (t : String) : SNode :=
  { n with dollarId := none, description := none, title := none,
           type := some (.one t) }

/-- `schema.required || []` as consulted by `includes` (a boolean `required`
contributes no keys). -/
def reqList (n : SNode) : List String :=
  match n.required with
  | some (.rlist l) => l
  | _ => []

/-- `!schema.additionalProperties && Object.keys(schema.patternProperties)
.length === 1`, computed under `if (schema.patternProperties)`. -/
def singlePatternProperty (n : SNode) : Bool :=
  n.patternProperties.isSome
  && (match n.additionalProperties with
      | none => true
      | some (.abool false) => true
      | _ => false)
  && ((n.patternProperties.getD []).length == 1)

/-- The any-typed catch-all member appended for absent/`true`
`additionalProperties`: the shared `T_ANY_ADDITIONAL_PROPERTIES` constant
(arena slot 1), required, keyed `[k: string]`. -/
def anyCatchAll : Member :=
  { ast := 1, isPatternProperty := false, isRequired := true,
    isUnreachableDefinition := false, keyName := "[k: string]" }

/-- `key.replace("*/", "*\\/")` — JS `String.replace` with a string pattern
replaces only the first occurrence. -/
def replFirstL : List Char → List Char
  | [] => []
  | [a] => [a]
  | a :: b :: rest =>
    if a = '*' ∧ b = '/' then '*' :: '\\' :: '/' :: rest
    else a :: replFirstL (b :: rest)

def replFirst (s : String) : String := ⟨replFirstL s.data⟩

/-- The referenced-by comment appended to a pattern property's AST.  An
absent parent name prints as `undefined` (JS template-string coercion). -/
def patternComment (parentName : Option String) (key : String) : String :=
  "This interface was referenced by \x60" ++ parentName.getD "undefined"
    ++ "\x60\x27s JSON-Schema definition\nvia the \x60patternProperty\x60 \x22"
    ++ replFirst key ++ "\x22."

/-- The referenced-by comment appended to a `$defs` entry's AST. -/
def defsComment (parentName : Option String) (key : String) : String :=
  "This interface was referenced by \x60" ++ parentName.getD "undefined"
    ++ "\x60\x27s JSON-Schema\nvia the \x60definition\x60 \x22" ++ key ++ "\x22."

/-- `getDefinitionsMemoized(getRootSchema(schema))` acting on the build
state.  Modelled from the spec for the part not under `src/`: the upstream
linker's parent links make every graph node's root the document root
(node 0); an object literal created during the build has no parent, is its
own root, and — with `isSchema` false on every recursive call — always
yields the empty map. -/
def defsForRef (g : Graph) (r : SRef) (st : PState) :
    List (String × SVal) × PState :=
  if r.id < g.nodes.length then
    let r := getDefsMemo g 0 (g.nodes.length + 1) st.defsCache
    (r.1, { st with defsCache := r.2 })
  else ([], st)

/-- `findKey(definitions, _ => _ === schema)`: the first definitions key
whose value is this very node. -/
def findDefKey (defs : List (String × SVal)) (nid : Nat) : Option String :=
  (defs.find? (fun p => p.2 = SVal.node nid)).map (·.1)

/-- `parseLiteral`: a fresh LITERAL AST object. -/
def parseLiteralSlot (l : Lit) (keyName : Option String) (st : PState) :
    Nat × PState :=
  allocSlot (some { kind := .LITERAL, keyName := keyName, params := .lit l }) st

/-- `parseBooleanSchema`: `true` gives a fresh ANY node, `false` a fresh
NEVER node. -/
def parseBooleanSlot (b : Bool) (keyName : Option String) (st : PState) :
    Nat × PState :=
  allocSlot (some { kind := if b then .ANY else .NEVER, keyName := keyName }) st

/-- Allocate LITERAL slots for a list of enum values (no display names). -/
def allocLits (ls : List Lit) (st : PState) : List Nat × PState :=
  match ls with
  | [] => ([], st)
  | l :: rest =>
    let r1 := parseLiteralSlot l none st
    let r2 := allocLits rest r1.2
    (r1.1 :: r2.1, r2.2)

/-- `schema.enum.map((_, n) => ({ast: parseLiteral(_), keyName:
schema.tsEnumNames![n]}))`: pair each value with the hint at the same
positional index. -/
def allocEnumMembers (vs : List Lit) (hints : List String) (idx : Nat)
    (st : PState) : List EnumMember × PState :=
  match vs with
  | [] => ([], st)
  | v :: rest =>
    let r1 := parseLiteralSlot v none st
    let r2 := allocEnumMembers rest hints (idx + 1) r1.2
    ({ ast := r1.1, keyName := hints.get? idx } :: r2.1, r2.2)

/- ### The AST builder (`parse`, `parseAsTypeWithCache`, `parseNonLiteral`,
`newInterface`, `parseSchema`, `parseSuperTypes`).  `fuel` bounds recursion
depth; in the source, termination on cyclic graphs is guaranteed by the
placeholder-then-fill cache, which is embedded faithfully below. -/

mutual
/-- `parse(schema, keyName, processed, usedNames)`: primitives short-circuit
(boolean schemas; literals are only built via `parseLiteral` directly),
otherwise dispatch on the node's category tags. -/
def parse (g : Graph) (fuel : Nat) (v : SVal) (keyName : Option String)
    (st : PState) : Except String (Nat × PState) :=
  match fuel with
  | 0 => .error "out of fuel"
  | fuel' + 1 =>
    match v with
    | .bool b => .ok (parseBooleanSlot b keyName st)
    | .node i => parseRef g fuel' ⟨i, g.get i⟩ keyName st
termination_by structural fuel

/-- The body of `parse` for a schema object: one category tag dispatches to
the cached builder; several tags build a synthetic intersection wrapper
(`{$id, allOf: [], description, title}` — a fresh object identity) whose
`params` are then assigned from per-tag builds of stripped copies. -/
def parseRef (g : Graph) (fuel : Nat) (r : SRef) (keyName : Option String)
    (st : PState) : Except String (Nat × PState) :=
  match fuel with
  | 0 => .error "out of fuel"
  | fuel' + 1 =>
    match typesOfSchema r.node with
    | [t] => parseAsTypeWithCache g fuel' r t keyName st
    | ts =>
      let syn : SNode := { dollarId := r.node.dollarId, allOf := some [],
                           description := r.node.description, title := r.node.title }
      let fr := freshId st
      match parseAsTypeWithCache g fuel' ⟨fr.1, syn⟩ .ALL_OF keyName fr.2 with
      | .error e => .error e
      | .ok (sid, st1) =>
        match parseMultiChildren g fuel' r.node ts keyName st1 with
        | .error e => .error e
        | .ok (slots, st2) => .ok (sid, setParams sid slots st2)
termination_by structural fuel

/-- `types.map(type => parseAsTypeWithCache(maybeStripNameHints(schema),
type, keyName, …))` — each iteration strips a fresh copy (fresh identity). -/
def parseMultiChildren (g : Graph) (fuel : Nat) (n : SNode)
    (ts : List SchemaType) (keyName : Option String) (st : PState) :
    Except String (List Nat × PState) :=
  match fuel with
  | 0 => .error "out of fuel"
  | fuel' + 1 =>
    match ts with
    | [] => .ok ([], st)
    | t :: rest =>
      let fr := freshId st
      match parseAsTypeWithCache g fuel' ⟨fr.1, maybeStripNameHints n⟩ t keyName fr.2 with
      | .error e => .error e
      | .ok (sid, st1) =>
        match parseMultiChildren g fuel' n rest keyName st1 with
        | .error e => .error e
        | .ok (sids, st2) => .ok (sid :: sids, st2)
termination_by structural fuel

/-- `parseAsTypeWithCache`: return the cached AST for (node identity,
category) when present; otherwise insert an empty placeholder slot into the
cache *before* computing the contents, then fill the slot in place
(`Object.assign`). -/
def parseAsTypeWithCache (g : Graph) (fuel : Nat) (r : SRef) (t : SchemaType)
    (keyName : Option String) (st : PState) : Except String (Nat × PState) :=
  match fuel with
  | 0 => .error "out of fuel"
  | fuel' + 1 =>
    match lookupCache st.cache (r.id, t) with
    | some sid => .ok (sid, st)
    | none =>
      let sid := st.arena.length
      let st1 : PState :=
        { st with
          arena := st.arena ++ [none]
          cache := ((r.id, t), sid) :: st.cache }
      match parseNonLiteral g fuel' r t keyName st1 with
      | .error e => .error e
      | .ok (d, st2) => .ok (sid, setSlot sid d st2)
termination_by structural fuel

/-- `parseNonLiteral`: build one category's AST contents.  Queries the
memoized Definitions Collector for the root schema and looks the node up in
it for a definition-key name, then switches on the category tag. -/
def parseNonLiteral (g : Graph) (fuel : Nat) (r : SRef) (t : SchemaType)
    (keyName : Option String) (st : PState) : Except String (ASTData × PState) :=
  match fuel with
  | 0 => .error "out of fuel"
  | fuel' + 1 =>
    let s := r.node
    let dres := defsForRef g r st
    let st := dres.2
    let kdef := findDefKey dres.1 r.id
    match t with
    | .ALL_OF =>
      let nr := stdNameSt s kdef st
      let nm := nr.1
      let st := nr.2
      match parseListVals g fuel' (s.allOf.getD []) st with
      | .error e => .error e
      | .ok (slots, st) =>
        .ok ({ kind := .INTERSECTION, comment := s.description,
               deprecated := s.deprecated, keyName := keyName,
               standaloneName := nm, params := .slots slots }, st)
    | .ANY =>
      let nr := stdNameSt s kdef st
      let nm := nr.1
      let st := nr.2
      .ok ({ kind := .ANY, comment := s.description, deprecated := s.deprecated,
             keyName := keyName, standaloneName := nm }, st)
    | .ANY_OF =>
      let nr := stdNameSt s kdef st
      let nm := nr.1
      let st := nr.2
      match parseListVals g fuel' (s.anyOf.getD []) st with
      | .error e => .error e
      | .ok (slots, st) =>
        .ok ({ kind := .UNION, comment := s.description,
               deprecated := s.deprecated, keyName := keyName,
               standaloneName := nm, params := .slots slots }, st)
    | .BOOLEAN =>
      let nr := stdNameSt s kdef st
      let nm := nr.1
      let st := nr.2
      .ok ({ kind := .BOOLEAN, comment := s.description,
             deprecated := s.deprecated, keyName := keyName,
             standaloneName := nm }, st)
    | .CUSTOM_TYPE =>
      let nr := stdNameSt s kdef st
      let nm := nr.1
      let st := nr.2
      .ok ({ kind := .CUSTOM_TYPE, comment := s.description,
             deprecated := s.deprecated, keyName := keyName,
             standaloneName := nm,
             params := match s.tsType with | some ty => .custom ty | none => .pnone }, st)
    | .NAMED_ENUM =>
      match s.enum? with
      | some (.arr vs) =>
        match s.tsEnumNames with
        | some hints =>
          let er := allocEnumMembers vs hints 0 st
          let logr := stdNameSt s (kdef <|> keyName) er.2
          let nr := stdNameSt s (kdef <|> keyName) logr.2
          let ems := er.1
          let nm := nr.1
          let st := nr.2
          .ok ({ kind := .ENUM, comment := s.description,
                 deprecated := s.deprecated, keyName := keyName,
                 standaloneName := nm, params := .enums ems }, st)
        | none =>
          if vs.isEmpty then
            let logr := stdNameSt s (kdef <|> keyName) st
            let nr := stdNameSt s (kdef <|> keyName) logr.2
            let nm := nr.1
            let st := nr.2
            .ok ({ kind := .ENUM, comment := s.description,
                   deprecated := s.deprecated, keyName := keyName,
                   standaloneName := nm, params := .enums [] }, st)
          else .error "Cannot read properties of undefined"
      | _ => .error "schema.enum is an object"
    | .NAMED_SCHEMA => newInterface g fuel' r keyName none st
    | .NEVER =>
      let nr := stdNameSt s kdef st
      let nm := nr.1
      let st := nr.2
      .ok ({ kind := .NEVER, comment := s.description,
             deprecated := s.deprecated, keyName := keyName,
             standaloneName := nm }, st)
    | .NULL =>
      let nr := stdNameSt s kdef st
      let nm := nr.1
      let st := nr.2
      .ok ({ kind := .NULL, comment := s.description,
             deprecated := s.deprecated, keyName := keyName,
             standaloneName := nm }, st)
    | .NUMBER =>
      let nr := stdNameSt s kdef st
      let nm := nr.1
      let st := nr.2
      .ok ({ kind := .NUMBER, comment := s.description,
             deprecated := s.deprecated, keyName := keyName,
             standaloneName := nm }, st)
    | .OBJECT =>
      let nr := stdNameSt s kdef st
      let nm := nr.1
      let st := nr.2
      .ok ({ kind := .OBJECT, comment := s.description,
             deprecated := s.deprecated, keyName := keyName,
             standaloneName := nm }, st)
    | .ONE_OF =>
      let nr := stdNameSt s kdef st
      let nm := nr.1
      let st := nr.2
      match parseListVals g fuel' (s.oneOf.getD []) st with
      | .error e => .error e
      | .ok (slots, st) =>
        .ok ({ kind := .UNION, comment := s.description,
               deprecated := s.deprecated, keyName := keyName,
               standaloneName := nm, params := .slots slots }, st)
    | .REFERENCE =>
      .error "Refs should have been resolved by the resolver! - [object Object]"
    | .STRING =>
      let nr := stdNameSt s kdef st
      let nm := nr.1
      let st := nr.2
      .ok ({ kind := .STRING, comment := s.description,
             deprecated := s.deprecated, keyName := keyName,
             standaloneName := nm }, st)
    | .TYPED_ARRAY =>
      match s.items with
      | some (.list l) =>
        let nr := stdNameSt s kdef st
        let nm := nr.1
        let st := nr.2
        match parseListVals g fuel' l st with
        | .error e => .error e
        | .ok (slots, st) =>
          let base : ASTData :=
            { kind := .TUPLE, comment := s.description,
              deprecated := s.deprecated, keyName := keyName,
              maxItems := s.maxItems, minItems := s.minItems,
              standaloneName := nm, params := .slots slots }
          match s.additionalItems with
          | some (.abool true) => .ok ({ base with spreadParam := some 0 }, st)
          | some (.aschema v) =>
            match parse g fuel' v none st with
            | .error e => .error e
            | .ok (sp, st) => .ok ({ base with spreadParam := some sp }, st)
          | _ => .ok (base, st)
      | some (.single it) =>
        let nr := stdNameSt s kdef st
        let nm := nr.1
        let st := nr.2
        match parse g fuel' it (some "{keyNameFromDefinition}Items") st with
        | .error e => .error e
        | .ok (sid, st) =>
          .ok ({ kind := .ARRAY, comment := s.description,
                 deprecated := s.deprecated, keyName := keyName,
                 standaloneName := nm, params := .slot sid }, st)
      | none => .error "unreachable: TYPED_ARRAY without items"
    | .UNION =>
      match s.type with
      | some (.many ts) =>
        let nr := stdNameSt s kdef st
        let nm := nr.1
        let st := nr.2
        match parseUnionMembers g fuel' s ts st with
        | .error e => .error e
        | .ok (slots, st) =>
          .ok ({ kind := .UNION, comment := s.description,
                 deprecated := s.deprecated, keyName := keyName,
                 standaloneName := nm, params := .slots slots }, st)
      | _ => .error "schema.type.map is not a function"
    | .UNNAMED_ENUM =>
      match s.enum? with
      | none => .error "Cannot convert undefined to object"
      | some sh =>
        let lits := match sh with | .arr vs => vs | .obj kvs => kvs.map (·.2)
        let lr := allocLits lits st
        let nr := stdNameSt s kdef lr.2
        let slots := lr.1
        let nm := nr.1
        let st := nr.2
        .ok ({ kind := .UNION, comment := s.description,
               deprecated := s.deprecated, keyName := keyName,
               standaloneName := nm, params := .slots slots }, st)
    | .UNNAMED_SCHEMA => newInterface g fuel' r keyName kdef st
    | .UNTYPED_ARRAY =>
      let minI := s.minItems
      let maxI : Int := match s.maxItems with | some m => m | none => -1
      let minPos : Bool := match minI with | some m => decide (m > 0) | none => false
      if minPos || decide (maxI ≥ 0) then
        let lenJS : Int := match minI with | none => 0 | some m => max maxI m
        let nr := stdNameSt s kdef st
        let nm := nr.1
        let st := nr.2
        .ok ({ kind := .TUPLE, comment := s.description,
               deprecated := s.deprecated, keyName := keyName,
               maxItems := s.maxItems, minItems := minI,
               params := .slots (List.replicate lenJS.toNat 0),
               spreadParam := if maxI ≥ 0 then none else some 0,
               standaloneName := nm }, st)
      else
        let nr := stdNameSt s kdef st
        let nm := nr.1
        let st := nr.2
        .ok ({ kind := .ARRAY, comment := s.description,
               deprecated := s.deprecated, keyName := keyName,
               params := .slot 0, standaloneName := nm }, st)
termination_by structural fuel

/-- `schema.xxxOf.map(_ => parse(_, undefined, …))` / `schema.items.map`. -/
def parseListVals (g : Graph) (fuel : Nat) (vs : List SVal) (st : PState) :
    Except String (List Nat × PState) :=
  match fuel with
  | 0 => .error "out of fuel"
  | fuel' + 1 =>
    match vs with
    | [] => .ok ([], st)
    | v :: rest =>
      match parse g fuel' v none st with
      | .error e => .error e
      | .ok (sid, st1) =>
        match parseListVals g fuel' rest st1 with
        | .error e => .error e
        | .ok (sids, st2) => .ok (sid :: sids, st2)
termination_by structural fuel

/-- The UNION case's member builds: each declared type name yields a fresh
copy of the schema fixed to that type (name hints omitted), handed back to
`parse` for reclassification. -/
def parseUnionMembers (g : Graph) (fuel : Nat) (n : SNode) (ts : List String)
    (st : PState) : Except String (List Nat × PState) :=
  match fuel with
  | 0 => .error "out of fuel"
  | fuel' + 1 =>
    match ts with
    | [] => .ok ([], st)
    | t :: rest =>
      let memberN := maybeStripDefault (unionMemberNode n t)
      let fr := freshId st
      match parseRef g fuel' ⟨fr.1, memberN⟩ none fr.2 with
      | .error e => .error e
      | .ok (sid, st1) =>
        match parseUnionMembers g fuel' n rest st1 with
        | .error e => .error e
        | .ok (sids, st2) => .ok (sid :: sids, st2)
termination_by structural fuel

/-- `newInterface`: allocate the standalone name first (so the interface gets
first pick), then assemble members and super types. -/
def newInterface (g : Graph) (fuel : Nat) (r : SRef)
    (keyName kdef : Option String) (st : PState) :
    Except String (ASTData × PState) :=
  match fuel with
  | 0 => .error "out of fuel"
  | fuel' + 1 =>
    let nr := stdNameSt r.node kdef st
    let nm := nr.1
    match parseSchema g fuel' r nm nr.2 with
    | .error e => .error e
    | .ok (ms, st) =>
      match parseSuperTypes g fuel' r st with
      | .error e => .error e
      | .ok (sup, st) =>
        .ok ({ kind := .INTERFACE, comment := r.node.description,
               deprecated := r.node.deprecated, keyName := keyName,
               params := .members ms, standaloneName := nm,
               superTypes := sup }, st)
termination_by structural fuel

/-- `parseSuperTypes`: `extends` is expected to be an array after
normalization; `null`/absent yield no super types, a bare object would make
the source call `.map` on a non-array. -/
def parseSuperTypes (g : Graph) (fuel : Nat) (r : SRef) (st : PState) :
    Except String (List Nat × PState) :=
  match fuel with
  | 0 => .error "out of fuel"
  | fuel' + 1 =>
    match r.node.extendsF with
    | none => .ok ([], st)
    | some .nullv => .ok ([], st)
    | some (.single _) => .error "superTypes.map is not a function"
    | some (.list vs) => parseListVals g fuel' vs st
termination_by structural fuel

/-- `parseSchema`: one member per declared property (in declared order), then
pattern properties, then `$defs` entries, then the `additionalProperties`
switch. -/
def parseSchema (g : Graph) (fuel : Nat) (r : SRef)
    (parentName : Option String) (st : PState) :
    Except String (List Member × PState) :=
  match fuel with
  | 0 => .error "out of fuel"
  | fuel' + 1 =>
    let n := r.node
    let reqL := reqList n
    match parseProps g fuel' (n.properties.getD []) reqL st with
    | .error e => .error e
    | .ok (ms1, st) =>
      match (if n.patternProperties.isSome then
               parsePatterns g fuel' (n.patternProperties.getD []) reqL
                 (singlePatternProperty n) parentName st
             else .ok ([], st)) with
      | .error e => .error e
      | .ok (ms2, st) =>
        match parseDefsMembers g fuel' (n.defs.getD []) reqL parentName st with
        | .error e => .error e
        | .ok (ms3, st) =>
          let asts := ms1 ++ ms2 ++ ms3
          match n.additionalProperties with
          | none =>
            if singlePatternProperty n then .ok (asts, st)
            else .ok (asts ++ [anyCatchAll], st)
          | some (.abool true) =>
            if singlePatternProperty n then .ok (asts, st)
            else .ok (asts ++ [anyCatchAll], st)
          | some (.abool false) => .ok (asts, st)
          | some (.aschema v) =>
            match parse g fuel' v (some "[k: string]") st with
            | .error e => .error e
            | .ok (sid, st) =>
              .ok (asts ++ [{ ast := sid, isPatternProperty := false,
                              isRequired := true,
                              isUnreachableDefinition := false,
                              keyName := "[k: string]" }], st)
termination_by structural fuel

/-- One member per declared property, required iff its key is in the
normalized `required` list, in declared order. -/
def parseProps (g : Graph) (fuel : Nat) (props : List (String × SVal))
    (reqL : List String) (st : PState) : Except String (List Member × PState) :=
  match fuel with
  | 0 => .error "out of fuel"
  | fuel' + 1 =>
    match props with
    | [] => .ok ([], st)
    | (k, v) :: rest =>
      match parse g fuel' v (some k) st with
      | .error e => .error e
      | .ok (sid, st1) =>
        match parseProps g fuel' rest reqL st1 with
        | .error e => .error e
        | .ok (ms, st2) =>
          .ok ({ ast := sid, isPatternProperty := false,
                 isRequired := reqL.contains k,
                 isUnreachableDefinition := false, keyName := k } :: ms, st2)
termination_by structural fuel

/-- One member per `patternProperties` entry; a single pattern with falsy
`additionalProperties` becomes the record's implicitly-required catch-all
(`[k: string]`).  The referenced-by comment is appended onto the (possibly
shared) child AST object. -/
def parsePatterns (g : Graph) (fuel : Nat) (kvs : List (String × SVal))
    (reqL : List String) (single : Bool) (parentName : Option String)
    (st : PState) : Except String (List Member × PState) :=
  match fuel with
  | 0 => .error "out of fuel"
  | fuel' + 1 =>
    match kvs with
    | [] => .ok ([], st)
    | (k, v) :: rest =>
      match parse g fuel' v (some k) st with
      | .error e => .error e
      | .ok (sid, st1) =>
        let st1 := mutateComment sid (patternComment parentName k) st1
        match parsePatterns g fuel' rest reqL single parentName st1 with
        | .error e => .error e
        | .ok (ms, st2) =>
          .ok ({ ast := sid, isPatternProperty := !single,
                 isRequired := single || reqL.contains k,
                 isUnreachableDefinition := false,
                 keyName := if single then "[k: string]" else k } :: ms, st2)
termination_by structural fuel

/-- One member per `$defs` entry, marked unreachable, included so the
definition's type gets a standalone declaration. -/
def parseDefsMembers (g : Graph) (fuel : Nat) (kvs : List (String × SVal))
    (reqL : List String) (parentName : Option String) (st : PState) :
    Except String (List Member × PState) :=
  match fuel with
  | 0 => .error "out of fuel"
  | fuel' + 1 =>
    match kvs with
    | [] => .ok ([], st)
    | (k, v) :: rest =>
      match parse g fuel' v (some k) st with
      | .error e => .error e
      | .ok (sid, st1) =>
        let st1 := mutateComment sid (defsComment parentName k) st1
        match parseDefsMembers g fuel' rest reqL parentName st1 with
        | .error e => .error e
        | .ok (ms, st2) =>
          .ok ({ ast := sid, isPatternProperty := false,
                 isRequired := reqL.contains k,
                 isUnreachableDefinition := true, keyName := k } :: ms, st2)
termination_by structural fuel
end

/-- One top-level build: parse the document root with an empty cache and an
empty Used-Names Set. -/
def buildAST (g : Graph) (fuel : Nat) : Except String (Nat × PState) :=
  parseRef g fuel ⟨0, g.get 0⟩ none (initState g)

deriving instance DecidableEq for Except

/- ### Concrete scenarios used by the theorems below. -/

/-- A bare `{type: "array"}` node. -/
def c2Node : SNode := { type := some (.one "array") }

/-- Its pipeline image: `minItems` defaulted to 0. -/
def c2Mid : SNode := { type := some (.one "array"), minItems := some 0 }

/-- The pipeline image of the second pass: the bounds-comment rule now sees
`minItems` and documents it. -/
def c2Twice : SNode :=
  { type := some (.one "array"), minItems := some 0,
    description := some "@minItems 0" }

/-- A typical non-array node for the amended-idempotence witness. -/
def c2WitNode : SNode :=
  { properties := some [("a", .bool true)], id := some "x" }

/-- An array node declaring `minItems: 5, maxItems: 2` over a single item
schema. -/
def c3Node : SNode :=
  { items := some (.single (.bool true)), minItems := some 5,
    maxItems := some 2 }

/-- A graph whose root reaches (through a property) a node carrying a
`$defs` entry `Foo`. -/
def c5G : Graph :=
  ⟨[{ properties := some [("x", .node 1)] },
    { defs := some [("Foo", .node 2)] },
    {}]⟩

/-- A self-referential record: property `a`'s schema is the record node
itself. -/
def selfG : Graph :=
  ⟨[{ properties := some [("a", .node 0)],
      additionalProperties := some (.abool false),
      required := some (.rlist []) }]⟩

/-- A diamond: two properties sharing one sub-schema node. -/
def diamondG : Graph :=
  ⟨[{ properties := some [("a", .node 1), ("b", .node 1)],
      additionalProperties := some (.abool false),
      required := some (.rlist []) },
    { type := some (.one "string") }]⟩

/-- The self-referential build terminates, the member's AST is the identical
object (same arena slot) as the record's own AST, and the cache holds at
most one entry per (node, category) pair. -/
def selfCheck : Bool :=
  match buildAST selfG 20 with
  | .ok (sid, st) =>
    (match st.arena.getD sid none with
     | some d =>
       match d.params with
       | .members [m] => m.ast == sid
       | _ => false
     | none => false)
    && decide (st.cache.map (·.1)).Nodup
  | .error _ => false

/-- Both diamond members resolve to the identical AST instance, and the
cache keys are duplicate-free. -/
def diamondCheck : Bool :=
  match buildAST diamondG 20 with
  | .ok (sid, st) =>
    (match st.arena.getD sid none with
     | some d =>
       match d.params with
       | .members [m1, m2] => m1.ast == m2.ast
       | _ => false
     | none => false)
    && decide (st.cache.map (·.1)).Nodup
  | .error _ => false

/-- A state whose cache already holds `(node 0, UNNAMED_SCHEMA) ↦ slot 2`,
for exercising cache hits. -/
def c1WitSt : PState :=
  { arena := [some tAny, some tAnyAddl, none],
    cache := [((0, .UNNAMED_SCHEMA), 2)],
    usedNames := [], defsCache := [], nextId := 1 }

/-- A record `{a: string}` with `required: ["a"]` and no
`additionalProperties` declaration. -/
def c6G : Graph :=
  ⟨[{ properties := some [("a", .node 1)], required := some (.rlist ["a"]) },
    { type := some (.one "string") }]⟩

def c6S1 : Except String (List Member × PState) :=
  parseProps c6G 9 ((c6G.get 0).properties.getD []) (reqList (c6G.get 0))
    (initState c6G)

def c6Ms1 : List Member := (c6S1.toOption.getD ([], initState c6G)).1

def c6St1 : PState := (c6S1.toOption.getD ([], initState c6G)).2

/-- A record with exactly one pattern property and an explicit
`additionalProperties: false`. -/
def c9G : Graph :=
  ⟨[{ patternProperties := some [("^x", .node 1)],
      additionalProperties := some (.abool false),
      required := some (.rlist []) },
    { type := some (.one "string") }]⟩

def c9P : Except String (Nat × PState) :=
  parse c9G 8 (SVal.node 1) (some "^x") (initState c9G)

def c9Sid : Nat := (c9P.toOption.getD (0, initState c9G)).1

def c9St : PState := (c9P.toOption.getD (0, initState c9G)).2

/-- A hinted enum with two values and no title/`$id`. -/
def c7G : Graph :=
  ⟨[{ enum? := some (.arr [.num 1, .num 2]),
      tsEnumNames := some ["One", "Two"] }]⟩

/-- A map-shaped (keyed) enum with display-name hints: invalid input. -/
def c7ObjG : Graph :=
  ⟨[{ enum? := some (.obj [("a", .num 1)]),
      tsEnumNames := some ["One"] }]⟩

def c7Res : Except String (ASTData × PState) :=
  parseNonLiteral c7G 10 ⟨0, c7G.get 0⟩ .NAMED_ENUM (some "color") (initState c7G)

def c7D : ASTData := (c7Res.toOption.getD ({ kind := .ANY }, initState c7G)).1

def c7St : PState := (c7Res.toOption.getD ({ kind := .ANY }, initState c7G)).2

def c4P : Except String (List Member × PState) :=
  parseProps diamondG 9 ((diamondG.get 0).properties.getD [])
    (reqList (diamondG.get 0)) (initState diamondG)

def c4Ms : List Member := (c4P.toOption.getD ([], initState diamondG)).1

def c10Res : Except String (ASTData × PState) :=
  parseNonLiteral diamondG 10 ⟨1, diamondG.get 1⟩ .STRING (some "a")
    (initState diamondG)

def c10D : ASTData := (c10Res.toOption.getD ({ kind := .ANY }, initState diamondG)).1

def c10St : PState := (c10Res.toOption.getD ({ kind := .ANY }, initState diamondG)).2

/-- The node's `enum` is an array containing `null`. -/
def enumHasNull (n : SNode) : Bool :=
  match n.enum? with
  | some (.arr vs) => vs.contains .nul
  | _ => false

/-- The node's `type` is an array containing `"null"`. -/
def typeManyHasNull (n : SNode) : Bool :=
  match n.type with
  | some (.many ts) => ts.contains "null"
  | _ => false

/-- The pipeline image of `c2WitNode`: `required` defaulted,
`additionalProperties` defaulted, `id` moved into `$id`. -/
def c2WitMid : SNode :=
  { properties := some [("a", SVal.bool true)],
    additionalProperties := some (.abool true),
    required := some (.rlist []), dollarId := some "x" }

/- ### Theorems. -/

/-- C8: a schema-like node declaring (truthy) `id` and `$id` with differing
values fails fatally with an error naming both values and the source file;
with only the legacy `id` declared it is moved into `$id` and deleted; a
node without a truthy `id` is left unchanged by this rule. -/
theorem c8_id_migration :
    (∀ fn n, isSchemaLike n = true → strTruthy n.id = true →
       strTruthy n.dollarId = true → n.id ≠ n.dollarId →
       ruleIdToDollarId fn n
         = .error ("Schema must define either id or $id, not both. Given id="
             ++ (n.id.getD "") ++ ", $id=" ++ (n.dollarId.getD "") ++ " in " ++ fn))
  ∧ (∀ fn n, strTruthy n.id = true → n.dollarId = none →
       ruleIdToDollarId fn n = .ok { n with dollarId := n.id, id := none })
  ∧ (∀ fn n, strTruthy n.id = false → ruleIdToDollarId fn n = .ok n) := by
  refine ⟨?_, ?_, ?_⟩
  · intro fn n _ h1 h2 h3
    unfold ruleIdToDollarId isSchemaLike
    simp [h1, h2, h3]
  · intro fn n h1 h2
    unfold ruleIdToDollarId isSchemaLike
    rw [if_neg, if_neg, if_pos (by simp [h1])]
    · simp [h2, strTruthy]
    · simp
  · intro fn n h1
    unfold ruleIdToDollarId isSchemaLike
    rw [if_neg, if_neg, if_neg (by simp [h1])]
    · simp [h1]
    · simp

/-- C8 witness: the conflict case errors with the full message, the
move case rewrites `id` into `$id`, and a node without `id` is unchanged. -/
theorem c8_id_migration_witness :
    ruleIdToDollarId "a.json" { id := some "x", dollarId := some "y" }
      = .error "Schema must define either id or $id, not both. Given id=x, $id=y in a.json"
  ∧ ruleIdToDollarId "a.json" { id := some "x" } = .ok { dollarId := some "x" }
  ∧ ruleIdToDollarId "a.json" ({} : SNode) = .ok {} := by
  refine ⟨?_, ?_, ?_⟩
  · exact c8_id_migration.1 "a.json" { id := some "x", dollarId := some "y" }
      (by decide) (by decide) (by decide) (by decide)
  · exact c8_id_migration.2.1 "a.json" { id := some "x" } (by decide) rfl
  · exact c8_id_migration.2.2 "a.json" {} (by decide)

/-- C1: the build cache maps each (node identity, category) pair to at most
one AST instance: a second request for a cached pair returns the very same
slot with the state untouched; concretely, the self-referential record build
terminates with the member's AST identical (same arena slot) to the record's
own AST and a duplicate-free cache, and the diamond build resolves both
members to the identical AST instance. -/
theorem c1_build_cache_sharing :
    (∀ g fuel r t kn st sid, lookupCache st.cache (r.id, t) = some sid →
       parseAsTypeWithCache g (fuel + 1) r t kn st = .ok (sid, st))
  ∧ selfCheck = true ∧ diamondCheck = true := by
  refine ⟨?_, by decide, by decide⟩
  intro g fuel r t kn st sid h
  simp only [parseAsTypeWithCache]
  rw [h]

/-- C1 witness: a state whose cache already holds `(node 0, UNNAMED_SCHEMA)
↦ slot 2` answers the request with slot 2 and an unchanged state. -/
theorem c1_build_cache_sharing_witness :
    parseAsTypeWithCache selfG 5 ⟨0, selfG.get 0⟩ .UNNAMED_SCHEMA none c1WitSt
      = .ok (2, c1WitSt) :=
  c1_build_cache_sharing.1 selfG 4 ⟨0, selfG.get 0⟩ .UNNAMED_SCHEMA none c1WitSt 2
    (by decide)

/-- C3 counterexample: with `minItems: 5, maxItems: 2` over a single item
schema, the rule produces a positional sequence of length 2 (JS
`maxItems || minItems || 0`), not `max(maxItems, minItems) = 5`. -/
theorem c3_items_rule_cex :
    ruleNormalizeItems c3Node
      = .ok { c3Node with items := some (.list [.bool true, .bool true]) }
  ∧ max (5 : Int) 2 = 5
  ∧ ([SVal.bool true, SVal.bool true].length : Int) ≠ max (5 : Int) 2 := by
  decide


/-- C3 amended: for a truthy single item schema (JS `schema.items && ...`;
the boolean schema `false` is the only falsy schema value and leaves the
node untouched), the replicated sequence has length `maxItems` whenever a
non-negative upper bound is declared (including `maxItems = 0`, where the
truncation step empties the initially longer sequence), and length
`minItems` with a trailing spread (`additionalItems` set to the item schema)
exactly when no upper bound exists; the length equals
`max(maxItems, minItems)` precisely when `minItems ≤ maxItems` (or no upper
bound is present); an `items` array longer than `maxItems` is truncated to
`maxItems` entries; a falsy single item schema is never replicated. -/
theorem c3_items_rule_amended :
    (∀ n it M, n.items = some (.single it) → svTruthy it = true →
       n.maxItems = some M → 0 ≤ M →
       (n.minItems = none ∨ ∃ m, n.minItems = some m ∧ 0 ≤ m) →
       ruleNormalizeItems n
         = .ok { n with items := some (.list (List.replicate M.toNat it)) })
  ∧ (∀ n it m, n.items = some (.single it) → svTruthy it = true →
       n.maxItems = none → n.minItems = some m → 0 < m →
       ruleNormalizeItems n
         = .ok { n with additionalItems := some (.aschema it),
                        items := some (.list (List.replicate m.toNat it)) })
  ∧ (∀ M m : Int, 0 < m → m ≤ M → jsTupleLen (some M) (some m) = max M m)
  ∧ (∀ n l M, n.items = some (.list l) → n.maxItems = some M → 0 ≤ M →
       M < (l.length : Int) →
       ruleNormalizeItems n = .ok { n with items := some (.list (l.take M.toNat)) })
  ∧ (∀ n, n.items = some (.single (.bool false)) → ruleNormalizeItems n = .ok n) := by
  refine ⟨?_, ?_, ?_, ?_, ?_⟩
  · intro n it M hi htr hM hM0 hmin
    have hge : decide (M ≥ 0) = true := by simpa using hM0
    rcases hmin with hnone | ⟨m, hm, hm0⟩
    · by_cases hMz : M = 0
      · subst hMz
        simp [ruleNormalizeItems, hi, htr, hM, hnone, jsTupleLen]
      · have hnlt : ¬ (M < 0) := by omega
        simp [ruleNormalizeItems, hi, htr, hM, hnone, jsTupleLen, hMz, hnlt, hge,
          Int.toNat_of_nonneg hM0]
    · by_cases hMz : M = 0
      · subst hMz
        by_cases hmz : m = 0
        · subst hmz
          simp [ruleNormalizeItems, hi, htr, hM, hm, jsTupleLen]
        · have hmpos : 0 < m := by omega
          have hnlt : ¬ (m < 0) := by omega
          simp [ruleNormalizeItems, hi, htr, hM, hm, jsTupleLen, hmz, hnlt,
            Int.toNat_of_nonneg hm0, hmpos]
      · have hnlt : ¬ (M < 0) := by omega
        simp [ruleNormalizeItems, hi, htr, hM, hm, jsTupleLen, hMz, hnlt, hge,
          Int.toNat_of_nonneg hM0]
  · intro n it m hi htr hM hm hm0
    have hmz : ¬ m = 0 := by omega
    have hnlt : ¬ (m < 0) := by omega
    simp [ruleNormalizeItems, hi, htr, hM, hm, jsTupleLen, hmz, hnlt, hm0]
  · intro M m hm hmM
    have hMz : ¬ M = 0 := by omega
    simp only [jsTupleLen, hMz, ite_false, if_neg, reduceIte]
    omega
  · intro n l M hi hM hM0 hlt
    have hge : decide (M ≥ 0) = true := by simpa using hM0
    simp [ruleNormalizeItems, hi, hM, hge, hlt]
  · intro n hi
    simp [ruleNormalizeItems, hi, svTruthy]

/-- C3 witness: both replication branches, the truncation branch at concrete
bounds, and the falsy no-op. -/
theorem c3_items_rule_amended_witness :
    ruleNormalizeItems { items := some (.single (.bool true)), maxItems := some 3 }
      = .ok { items := some (.list [.bool true, .bool true, .bool true]),
              maxItems := some 3 }
  ∧ ruleNormalizeItems { items := some (.single (.bool true)), minItems := some 2 }
      = .ok { items := some (.list [.bool true, .bool true]),
              additionalItems := some (.aschema (.bool true)), minItems := some 2 }
  ∧ jsTupleLen (some 4) (some 2) = max (4 : Int) 2
  ∧ ruleNormalizeItems { items := some (.list [.bool true, .bool false]),
                         maxItems := some 1 }
      = .ok { items := some (.list [.bool true]), maxItems := some 1 }
  ∧ ruleNormalizeItems { items := some (.single (.bool false)), minItems := some 2 }
      = .ok { items := some (.single (.bool false)), minItems := some 2 } := by
  refine ⟨?_, ?_, ?_, ?_, ?_⟩
  · exact c3_items_rule_amended.1 _ (.bool true) 3 rfl rfl rfl (by decide)
      (Or.inl rfl)
  · exact c3_items_rule_amended.2.1 _ (.bool true) 2 rfl rfl rfl rfl (by decide)
  · exact c3_items_rule_amended.2.2.1 4 2 (by decide) (by decide)
  · exact c3_items_rule_amended.2.2.2.1 _ [.bool true, .bool false] 1 rfl rfl
      (by decide) (by decide)
  · exact c3_items_rule_amended.2.2.2.2 _ rfl

theorem mergeDefs_nil_right (a : List (String × SVal)) : mergeDefs a [] = a := by
  simp [mergeDefs]

/-- With `isSchema = false` — as on every recursive call — the collector
contributes nothing, whatever it reaches. -/
theorem getDefs_false_aux (g : Graph) : ∀ fuel : Nat,
    (∀ v visited, (getDefsSV g fuel v false visited).1 = [])
  ∧ (∀ vs visited, (getDefsList g fuel vs visited).1 = []) := by
  intro fuel
  induction fuel with
  | zero =>
    constructor
    · intro v visited
      cases v <;> simp [getDefsSV]
    · intro vs visited
      cases vs <;> simp [getDefsList]
  | succ f ih =>
    constructor
    · intro v visited
      cases v with
      | bool b => simp [getDefsSV]
      | node i =>
        simp only [getDefsSV]
        split
        next => rfl
        next => simp [ih.2, mergeDefs]
    · intro vs visited
      cases vs with
      | nil => simp [getDefsList]
      | cons v rest =>
        simp only [getDefsList]
        simp [ih.1, ih.2, mergeDefs]

/-- C5 counterexample: node 1 is reachable from the root through a property
and carries the `$defs` entry `Foo`, yet the collector's result for the root
is empty — nested definition maps are *not* merged in (every recursive call
passes `isSchema = false`). -/
theorem c5_defs_collector_cex :
    (c5G.get 1).defs = some [("Foo", SVal.node 2)]
  ∧ (c5G.get 0).properties = some [("x", SVal.node 1)]
  ∧ (getDefsSV c5G 10 (.node 0) true []).1 = [] := by
  decide

/-- C5 amended: the collector returns exactly the root node's own
definition-map entries — recursion reaches every nested value but with
`isSchema = false`, so nested definition maps contribute the empty map, as
does a revisited node — and the memoized front-end answers a repeated query
for a cached root from the cache, unchanged. -/
theorem c5_defs_collector_amended :
    (∀ g fuel v visited, (getDefsSV g fuel v false visited).1 = [])
  ∧ (∀ g fuel i visited, i ∉ visited →
       (getDefsSV g (fuel + 1) (.node i) true visited).1 = (g.get i).defs.getD [])
  ∧ (∀ g fuel i (b : Bool) visited, i ∈ visited →
       getDefsSV g fuel (.node i) b visited = ([], visited))
  ∧ (∀ g nid fuel cache p, cache.find? (fun q => q.1 = nid) = some p →
       getDefsMemo g nid fuel cache = (p.2, cache)) := by
  refine ⟨?_, ?_, ?_, ?_⟩
  · intro g fuel v visited
    exact (getDefs_false_aux g fuel).1 v visited
  · intro g fuel i visited h
    simp only [getDefsSV]
    rw [if_neg h]
    cases hd : (g.get i).defs with
    | none => simp [hd, (getDefs_false_aux g fuel).2, mergeDefs]
    | some d => simp [hd, (getDefs_false_aux g fuel).2, mergeDefs_nil_right]
  · intro g fuel i b visited h
    cases fuel with
    | zero => rfl
    | succ f => simp only [getDefsSV]; rw [if_pos h]
  · intro g nid fuel cache p h
    simp only [getDefsMemo, h]

/-- C5 witness: the amended collector behaviour at the concrete graph —
nested call empty, root call returning exactly its own `$defs`, revisit
empty, memo hit answered from the cache. -/
theorem c5_defs_collector_amended_witness :
    (getDefsSV c5G 3 (.node 1) false []).1 = []
  ∧ (getDefsSV c5G 5 (.node 1) true []).1 = [("Foo", SVal.node 2)]
  ∧ getDefsSV c5G 5 (.node 0) true [0] = ([], [0])
  ∧ getDefsMemo c5G 0 5 [(0, [("X", SVal.bool true)])]
      = ([("X", SVal.bool true)], [(0, [("X", SVal.bool true)])]) := by
  refine ⟨?_, ?_, ?_, ?_⟩
  · exact c5_defs_collector_amended.1 c5G 3 (.node 1) []
  · exact (c5_defs_collector_amended.2.1 c5G 4 1 [] (by decide)).trans rfl
  · exact c5_defs_collector_amended.2.2.1 c5G 5 0 true [0] (by decide)
  · exact c5_defs_collector_amended.2.2.2 c5G 0 5
      [(0, [("X", SVal.bool true)])] (0, [("X", SVal.bool true)]) (by decide)

theorem stdNameSt_arena (n : SNode) (k : Option String) (st : PState) :
    ((stdNameSt n k st).2).arena = st.arena := rfl

/-- The enum member builder pairs each value with the display-name hint at
the same positional index and allocates one LITERAL AST per value. -/
theorem allocEnumMembers_spec : ∀ (vs : List Lit) (hints : List String) (idx : Nat) (st : PState),
    ((allocEnumMembers vs hints idx st).1.length = vs.length)
  ∧ (∀ j, j < st.arena.length →
       (allocEnumMembers vs hints idx st).2.arena.get? j = st.arena.get? j)
  ∧ (∀ i, i < vs.length →
       ∃ em, (allocEnumMembers vs hints idx st).1.get? i = some em ∧
         em.keyName = hints.get? (idx + i) ∧
         (allocEnumMembers vs hints idx st).2.arena.get? em.ast
           = some (some { kind := .LITERAL, keyName := none,
                          params := .lit (vs.getD i .nul) })) := by
  intro vs
  induction vs with
  | nil =>
    intro hints idx st
    refine ⟨rfl, fun j _ => rfl, fun i hi => absurd hi (by simp)⟩
  | cons v rest ih =>
    intro hints idx st
    have harena1 : (parseLiteralSlot v none st).2.arena
        = st.arena ++ [some { kind := .LITERAL, keyName := none, params := .lit v }] := rfl
    have hslot : (parseLiteralSlot v none st).1 = st.arena.length := rfl
    obtain ⟨ihlen, ihpres, ihget⟩ := ih hints (idx + 1) (parseLiteralSlot v none st).2
    refine ⟨?_, ?_, ?_⟩
    · simp [allocEnumMembers, ihlen]
    · intro j hj
      simp only [allocEnumMembers]
      rw [ihpres j (by simp [harena1]; omega)]
      rw [harena1, List.get?_append (by omega)]
    · intro i hi
      cases i with
      | zero =>
        refine ⟨{ ast := (parseLiteralSlot v none st).1,
                  keyName := hints.get? idx }, ?_, ?_, ?_⟩
        · simp [allocEnumMembers]
        · simp
        · simp only [allocEnumMembers]
          rw [ihpres _ (by rw [harena1]; simp [hslot])]
          rw [hslot, harena1]
          simp [List.get?_concat_length]
      | succ i =>
        obtain ⟨em, hget, hkey, har⟩ := ihget i (by simpa using hi)
        refine ⟨em, ?_, ?_, ?_⟩
        · simpa [allocEnumMembers] using hget
        · rw [hkey]; congr 1; omega
        · simpa [allocEnumMembers] using har

/-- C7: building a hinted enum pairs each enum value with the hint at the
same positional index into an ENUM node, and a keyed/map-shaped (or absent)
enum value set aborts the build with the `schema.enum is an object`
TypeError. -/
theorem c7_named_enum :
    (∀ g fuel r kn st kvs, r.node.enum? = some (.obj kvs) →
       parseNonLiteral g (fuel + 1) r .NAMED_ENUM kn st
         = .error "schema.enum is an object")
  ∧ (∀ g fuel r kn st, r.node.enum? = none →
       parseNonLiteral g (fuel + 1) r .NAMED_ENUM kn st
         = .error "schema.enum is an object")
  ∧ (∀ g fuel r kn st vs hints d st',
       r.node.enum? = some (.arr vs) → r.node.tsEnumNames = some hints →
       parseNonLiteral g (fuel + 1) r .NAMED_ENUM kn st = .ok (d, st') →
       d.kind = .ENUM ∧
       ∃ ems, d.params = .enums ems ∧ ems.length = vs.length ∧
         (∀ i, i < vs.length →
           ∃ em, ems.get? i = some em ∧ em.keyName = hints.get? i ∧
             st'.arena.get? em.ast
               = some (some { kind := .LITERAL, keyName := none,
                              params := .lit (vs.getD i .nul) }))) := by
  refine ⟨?_, ?_, ?_⟩
  · intro g fuel r kn st kvs he
    simp only [parseNonLiteral, he]
  · intro g fuel r kn st he
    simp only [parseNonLiteral, he]
  · intro g fuel r kn st vs hints d st' he ht h
    simp only [parseNonLiteral, he, ht] at h
    rw [Except.ok.injEq, Prod.mk.injEq] at h
    obtain ⟨hd, hst⟩ := h
    subst hd
    subst hst
    obtain ⟨hlen, _, hget⟩ :=
      allocEnumMembers_spec vs hints 0 (defsForRef g r st).2
    refine ⟨rfl, _, rfl, hlen, ?_⟩
    intro i hi
    obtain ⟨em, h1, h2, h3⟩ := hget i hi
    refine ⟨em, h1, by simpa using h2, ?_⟩
    rw [stdNameSt_arena, stdNameSt_arena]
    exact h3

/-- C7 witness: the keyed enum aborts; the hinted `[1, 2]` enum builds an
ENUM node. -/
theorem c7_named_enum_witness :
    parseNonLiteral c7ObjG 10 ⟨0, c7ObjG.get 0⟩ .NAMED_ENUM none (initState c7ObjG)
      = .error "schema.enum is an object"
  ∧ c7D.kind = .ENUM := by
  constructor
  · exact c7_named_enum.1 c7ObjG 9 ⟨0, c7ObjG.get 0⟩ none (initState c7ObjG)
      [("a", .num 1)] rfl
  · exact (c7_named_enum.2.2 c7G 9 ⟨0, c7G.get 0⟩ (some "color") (initState c7G)
      [.num 1, .num 2] ["One", "Two"] c7D c7St rfl rfl (by decide)).1

/-- C6: the catch-all assembly — absent or `true` `additionalProperties`
appends the shared any-typed catch-all member unless the single-pattern step
already produced one; `false` closes the record (nothing appended); a
schema-valued `additionalProperties` is parsed into the catch-all's type;
every appended catch-all member is required and keyed `[k: string]`, and the
any-typed catch-all is the shared ANY-kind constant at arena slot 1. -/
theorem c6_additional_properties_catchall :
    (∀ g fuel (r : SRef) pn st ms1 st1 ms2 st2 ms3 st3,
       parseProps g fuel (r.node.properties.getD []) (reqList r.node) st = .ok (ms1, st1) →
       (if r.node.patternProperties.isSome then
          parsePatterns g fuel (r.node.patternProperties.getD []) (reqList r.node)
            (singlePatternProperty r.node) pn st1
        else .ok ([], st1)) = .ok (ms2, st2) →
       parseDefsMembers g fuel (r.node.defs.getD []) (reqList r.node) pn st2 = .ok (ms3, st3) →
       ((r.node.additionalProperties = none ∨
           r.node.additionalProperties = some (.abool true)) →
          (singlePatternProperty r.node = false →
             parseSchema g (fuel + 1) r pn st
               = .ok (ms1 ++ ms2 ++ ms3 ++ [anyCatchAll], st3))
        ∧ (singlePatternProperty r.node = true →
             parseSchema g (fuel + 1) r pn st = .ok (ms1 ++ ms2 ++ ms3, st3)))
     ∧ (r.node.additionalProperties = some (.abool false) →
          parseSchema g (fuel + 1) r pn st = .ok (ms1 ++ ms2 ++ ms3, st3))
     ∧ (∀ v sid st4, r.node.additionalProperties = some (.aschema v) →
          parse g fuel v (some "[k: string]") st3 = .ok (sid, st4) →
          parseSchema g (fuel + 1) r pn st
            = .ok (ms1 ++ ms2 ++ ms3
                ++ [{ ast := sid, isPatternProperty := false, isRequired := true,
                      isUnreachableDefinition := false, keyName := "[k: string]" }], st4)))
  ∧ anyCatchAll.isRequired = true
  ∧ anyCatchAll.keyName = "[k: string]"
  ∧ anyCatchAll.ast = 1
  ∧ (∀ g, (initState g).arena.get? 1 = some (some tAnyAddl))
  ∧ tAnyAddl.kind = .ANY := by
  refine ⟨?_, rfl, rfl, rfl, fun g => rfl, rfl⟩
  intro g fuel r pn st ms1 st1 ms2 st2 ms3 st3 h1 h2 h3
  refine ⟨?_, ?_, ?_⟩
  · intro hAP
    constructor
    · intro hsp
      rcases hAP with hAP | hAP <;>
      · simp only [parseSchema, h1]
        rw [h2]
        simp only [h3, hAP, hsp]
        simp
    · intro hsp
      rcases hAP with hAP | hAP <;>
      · simp only [parseSchema, h1]
        rw [h2]
        simp only [h3, hAP, hsp]
        simp
  · intro hAP
    simp only [parseSchema, h1]
    rw [h2]
    simp only [h3, hAP]
  · intro v sid st4 hAP h4
    simp only [parseSchema, h1]
    rw [h2]
    simp only [h3, hAP, h4]

/-- C6 witness: the record `{a: string}` with `additionalProperties`
undeclared gets exactly its property member followed by the required
any-typed catch-all. -/
theorem c6_additional_properties_catchall_witness :
    parseSchema c6G 10 ⟨0, c6G.get 0⟩ none (initState c6G)
      = .ok (c6Ms1 ++ [] ++ [] ++ [anyCatchAll], c6St1) :=
  ((c6_additional_properties_catchall.1 c6G 9 ⟨0, c6G.get 0⟩ none
      (initState c6G) c6Ms1 c6St1 [] c6St1 [] c6St1
      (by decide) rfl rfl).1 (Or.inl rfl)).1 (by decide)

/-- C9: a record with exactly one `patternProperties` entry and falsy
`additionalProperties` — including an explicit `false` — turns that pattern
into the record's single implicitly-required catch-all member keyed
`[k: string]` (not flagged as a pattern member), and with
`additionalProperties: false` the switch appends nothing further. -/
theorem c9_single_pattern_property :
    (∀ n : SNode, ∀ k v, n.patternProperties = some [(k, v)] →
       (n.additionalProperties = none ∨ n.additionalProperties = some (.abool false)) →
       singlePatternProperty n = true)
  ∧ (∀ g fuel k v reqL pn st sid st2,
       parse g (fuel + 1) v (some k) st = .ok (sid, st2) →
       parsePatterns g (fuel + 2) [(k, v)] reqL true pn st
         = .ok ([{ ast := sid, isPatternProperty := false, isRequired := true,
                   isUnreachableDefinition := false, keyName := "[k: string]" }],
                mutateComment sid (patternComment pn k) st2))
  ∧ (∀ g fuel (r : SRef) pn st ms1 st1 ms2 st2 ms3 st3,
       parseProps g fuel (r.node.properties.getD []) (reqList r.node) st = .ok (ms1, st1) →
       (if r.node.patternProperties.isSome then
          parsePatterns g fuel (r.node.patternProperties.getD []) (reqList r.node)
            (singlePatternProperty r.node) pn st1
        else .ok ([], st1)) = .ok (ms2, st2) →
       parseDefsMembers g fuel (r.node.defs.getD []) (reqList r.node) pn st2 = .ok (ms3, st3) →
       r.node.additionalProperties = some (.abool false) →
       parseSchema g (fuel + 1) r pn st = .ok (ms1 ++ ms2 ++ ms3, st3)) := by
  refine ⟨?_, ?_, ?_⟩
  · intro n k v hp hAP
    rcases hAP with hAP | hAP <;> simp [singlePatternProperty, hp, hAP]
  · intro g fuel k v reqL pn st sid st2 h
    simp only [parsePatterns, h]
    simp [parsePatterns]
  · intro g fuel r pn st ms1 st1 ms2 st2 ms3 st3 h1 h2 h3 hAP
    simp only [parseSchema, h1]
    rw [h2]
    simp only [h3, hAP]

/-- C9 witness: the concrete single-pattern record with
`additionalProperties: false`. -/
theorem c9_single_pattern_property_witness :
    singlePatternProperty (c9G.get 0) = true
  ∧ parsePatterns c9G 9 [("^x", SVal.node 1)] [] true none (initState c9G)
      = .ok ([{ ast := c9Sid, isPatternProperty := false, isRequired := true,
                isUnreachableDefinition := false, keyName := "[k: string]" }],
             mutateComment c9Sid (patternComment none "^x") c9St) := by
  constructor
  · exact c9_single_pattern_property.1 (c9G.get 0) "^x" (.node 1) (by decide)
      (Or.inr (by decide))
  · exact c9_single_pattern_property.2.1 c9G 7 "^x" (.node 1) [] none
      (initState c9G) c9Sid c9St (by decide)

/-- C4: the build is a pure function of the schema graph and the (empty)
starting Used-Names set — two runs are identical — and record members
produced for declared properties follow the input's declared property order
key for key. -/
theorem c4_determinism_member_order :
    (∀ g fuel, buildAST g fuel = buildAST g fuel)
  ∧ (∀ (props : List (String × SVal)) g fuel reqL st ms st',
       parseProps g fuel props reqL st = .ok (ms, st') →
       ms.map Member.keyName = props.map Prod.fst) := by
  constructor
  · intro g fuel
    rfl
  · intro props
    induction props with
    | nil =>
      intro g fuel reqL st ms st' h
      cases fuel with
      | zero => simp [parseProps] at h
      | succ f =>
        simp only [parseProps] at h
        rw [Except.ok.injEq, Prod.mk.injEq] at h
        obtain ⟨hm, _⟩ := h
        simp [← hm]
    | cons p rest ih =>
      intro g fuel reqL st ms st' h
      cases fuel with
      | zero => simp [parseProps] at h
      | succ f =>
        simp only [parseProps] at h
        cases hp : parse g f p.2 (some p.1) st with
        | error e => rw [hp] at h; simp at h
        | ok pr =>
          rw [hp] at h
          simp only at h
          cases hrest : parseProps g f rest reqL pr.2 with
          | error e => rw [hrest] at h; simp at h
          | ok qr =>
            rw [hrest] at h
            simp only at h
            rw [Except.ok.injEq, Prod.mk.injEq] at h
            obtain ⟨hm, _⟩ := h
            subst hm
            simp [ih g f reqL pr.2 qr.1 qr.2 (by rw [hrest])]

/-- C4 witness: the diamond build twice, and the member keys of the diamond
record in declared order `a`, `b`. -/
theorem c4_determinism_member_order_witness :
    buildAST diamondG 20 = buildAST diamondG 20
  ∧ c4Ms.map Member.keyName
      = ((diamondG.get 0).properties.getD []).map Prod.fst := by
  constructor
  · exact c4_determinism_member_order.1 diamondG 20
  · exact c4_determinism_member_order.2 ((diamondG.get 0).properties.getD [])
      diamondG 9 (reqList (diamondG.get 0)) (initState diamondG) c4Ms
      ((c4P.toOption.getD ([], initState diamondG)).2) (by decide)

theorem stdNameSt_none (n : SNode) (dk : Option String) (st : PState)
    (ht : strTruthy n.title = false) (hd : strTruthy n.dollarId = false)
    (hk : strTruthy dk = false) :
    stdNameSt n dk st = (none, st) := by
  simp [stdNameSt, stdNameWith, stdCandidate, ht, hd, hk]

/-- An interface with no truthy title, `$id` or definitions key stays
anonymous. -/
theorem newInterface_anon : ∀ g fuel (r : SRef) kn (kdef : Option String) st d st',
    strTruthy r.node.title = false → strTruthy r.node.dollarId = false →
    strTruthy kdef = false →
    newInterface g fuel r kn kdef st = .ok (d, st') → d.standaloneName = none := by
  intro g fuel r kn kdef st d st' ht hd hk h
  cases fuel with
  | zero => simp [newInterface] at h
  | succ f =>
    simp only [newInterface, stdNameSt_none r.node kdef st ht hd hk] at h
    split at h
    next => simp at h
    next ms stx heq =>
      split at h
      next => simp at h
      next =>
        rw [Except.ok.injEq, Prod.mk.injEq] at h
        obtain ⟨hd2, _⟩ := h
        rw [← hd2]

theorem stdNameSt_key_isSome (n : SNode) (k : String) (st : PState)
    (ht : strTruthy n.title = false) (hd : strTruthy n.dollarId = false)
    (hk : k ≠ "") : ((stdNameSt n (some k) st).1).isSome = true := by
  have hcand : stdCandidate n (some k) = some k := by
    unfold stdCandidate
    rw [if_neg (by simp [ht]), if_neg (by simp [hd]),
      if_pos (by simp [strTruthy, hk])]
  simp [stdNameSt, stdNameWith, hcand, generateName]

/-- C10: when title, `$id` and the definitions key are all unavailable,
every category except NAMED_ENUM leaves the node anonymous, while the
NAMED_ENUM case falls back to the property key name under which the node was
parsed, so a hinted enum parsed under a non-empty key is never anonymous. -/
theorem c10_enum_name_fallback :
    (∀ g fuel (r : SRef) t kn st d st',
       strTruthy r.node.title = false → strTruthy r.node.dollarId = false →
       findDefKey (defsForRef g r st).1 r.id = none →
       t ≠ .NAMED_ENUM →
       parseNonLiteral g (fuel + 1) r t kn st = .ok (d, st') →
       d.standaloneName = none)
  ∧ (∀ g fuel (r : SRef) k st d st',
       strTruthy r.node.title = false → strTruthy r.node.dollarId = false →
       findDefKey (defsForRef g r st).1 r.id = none →
       k ≠ "" →
       parseNonLiteral g (fuel + 1) r .NAMED_ENUM (some k) st = .ok (d, st') →
       d.standaloneName.isSome = true) := by
  constructor
  · intro g fuel r t kn st d st' ht hd hkd htne h
    have hsn : ∀ st₀ : PState, stdNameSt r.node none st₀ = (none, st₀) :=
      fun st₀ => stdNameSt_none r.node none st₀ ht hd rfl
    cases t <;> simp only [parseNonLiteral, hkd, hsn] at h
    case NAMED_ENUM => exact absurd rfl htne
    case NAMED_SCHEMA =>
      exact newInterface_anon g fuel r kn none (defsForRef g r st).2 d st' ht hd rfl h
    case UNNAMED_SCHEMA =>
      exact newInterface_anon g fuel r kn none (defsForRef g r st).2 d st' ht hd rfl h
    all_goals
      repeat' split at h
    all_goals
      first
      | (obtain ⟨h1, h2⟩ := h
         rfl)
      | simp at h
  · intro g fuel r k st d st' ht hd hkd hk h
    simp only [parseNonLiteral, hkd, Option.none_orElse] at h
    repeat' split at h
    all_goals
      first
      | (obtain ⟨h1, h2⟩ := h
         exact stdNameSt_key_isSome r.node k _ ht hd hk)
      | simp at h

/-- C10 witness: a string-typed property node stays anonymous; the hinted
enum parsed under the key `color` gets a standalone name. -/
theorem c10_enum_name_fallback_witness :
    c10D.standaloneName = none ∧ c7D.standaloneName.isSome = true := by
  constructor
  · exact c10_enum_name_fallback.1 diamondG 9 ⟨1, diamondG.get 1⟩ .STRING
      (some "a") (initState diamondG) c10D c10St rfl rfl (by decide)
      (by decide) (by decide)
  · exact c10_enum_name_fallback.2 c7G 9 ⟨0, c7G.get 0⟩ "color"
      (initState c7G) c7D c7St rfl rfl (by decide) (by decide) (by decide)

/-- C2 counterexample: the pipeline is not idempotent.  On `{type: "array"}`
one pass defaults `minItems` to 0; the second pass's bounds-comment rule
then sees `minItems` and appends `@minItems 0` to the description, so
applying the pipeline twice differs from applying it once. -/
theorem c2_pipeline_not_idempotent_cex :
    pipelineNode "schema.json" c2Node = .ok c2Mid
  ∧ pipelineNode "schema.json" c2Mid = .ok c2Twice
  ∧ c2Twice ≠ c2Mid := by
  decide

theorem escL_head : ∀ l : List Char, (escL l).head? = l.head? := by
  intro l
  match l with
  | [] => rfl
  | [a] => rfl
  | a :: b :: r =>
    simp only [escL]
    split
    next h => obtain ⟨rfl, rfl⟩ := h; rfl
    next h => rfl

theorem escL_cons_ne (c : Char) (t : List Char)
    (h : ¬(c = '*' ∧ t.head? = some '/')) : escL (c :: t) = c :: escL t := by
  cases t with
  | nil => rfl
  | cons b r =>
    simp only [escL]
    rw [if_neg]
    intro hc
    exact h ⟨hc.1, by simp [hc.2]⟩

theorem escL_idem : ∀ l : List Char, escL (escL l) = escL l := by
  intro l
  induction l using escL.induct with
  | case1 => rfl
  | case2 a => rfl
  | case3 a b rest h ih =>
    obtain ⟨rfl, rfl⟩ := h
    have hstep : escL ('*' :: '/' :: rest) = '*' :: '\\' :: '/' :: escL rest := by
      simp only [escL]
      rw [if_pos (by simp)]
    rw [hstep]
    rw [escL_cons_ne '*' _ (by simp), escL_cons_ne '\\' _ (by simp),
      escL_cons_ne '/' _ (by simp), ih]
  | case4 a b rest h ih =>
    rw [escL_cons_ne a (b :: rest) (by simpa using h)]
    rw [escL_cons_ne a (escL (b :: rest)) (by rw [escL_head]; simpa using h)]
    rw [ih]

theorem escS_idem (s : String) : escS (escS s) = escS s := by
  simp only [escS]
  exact congrArg String.mk (escL_idem s.data)

theorem contains_filter_ne (ts : List String) (t : String) (h : t ≠ "null") :
    (ts.filter (fun x => x ≠ "null")).contains t = ts.contains t := by
  rw [Bool.eq_iff_iff, List.elem_iff, List.elem_iff, List.mem_filter]
  simp [h]

theorem hasType_r1 (n : SNode) (t : String) (h : t ≠ "null") :
    hasType (ruleRemoveNullType n) t = hasType n t := by
  unfold ruleRemoveNullType
  split
  next vs ts he htp =>
    split
    next hc =>
      simp only [hasType, htp]
      exact contains_filter_ne ts t h
    next => rfl
  next => rfl

theorem r1_proj (n : SNode) :
    (ruleRemoveNullType n).items = n.items
  ∧ (ruleRemoveNullType n).properties = n.properties
  ∧ (ruleRemoveNullType n).patternProperties = n.patternProperties
  ∧ (ruleRemoveNullType n).additionalProperties = n.additionalProperties
  ∧ (ruleRemoveNullType n).required = n.required
  ∧ (ruleRemoveNullType n).id = n.id
  ∧ (ruleRemoveNullType n).description = n.description
  ∧ (ruleRemoveNullType n).extendsF = n.extendsF
  ∧ (ruleRemoveNullType n).const? = n.const?
  ∧ (ruleRemoveNullType n).enum? = n.enum? := by
  unfold ruleRemoveNullType
  repeat' split
  all_goals exact ⟨rfl, rfl, rfl, rfl, rfl, rfl, rfl, rfl, rfl, rfl⟩

theorem isArrayType_r1 (n : SNode) :
    isArrayType (ruleRemoveNullType n) = isArrayType n := by
  unfold isArrayType
  rw [(r1_proj n).1, hasType_r1 n "array" (by decide), hasType_r1 n "any" (by decide)]

theorem isObjectType_r1 (n : SNode) :
    isObjectType (ruleRemoveNullType n) = isObjectType n := by
  unfold isObjectType
  rw [(r1_proj n).2.1, hasType_r1 n "object" (by decide), hasType_r1 n "any" (by decide)]

theorem hasType_r2 (n : SNode) (t : String) :
    hasType (ruleDestructureUnary n) t = hasType n t := by
  unfold ruleDestructureUnary
  split
  next s htp =>
    simp [hasType, htp, List.contains_cons, eq_comm]
  next => rfl

theorem r2_proj (n : SNode) :
    (ruleDestructureUnary n).items = n.items
  ∧ (ruleDestructureUnary n).properties = n.properties
  ∧ (ruleDestructureUnary n).patternProperties = n.patternProperties
  ∧ (ruleDestructureUnary n).additionalProperties = n.additionalProperties
  ∧ (ruleDestructureUnary n).required = n.required
  ∧ (ruleDestructureUnary n).id = n.id
  ∧ (ruleDestructureUnary n).description = n.description
  ∧ (ruleDestructureUnary n).extendsF = n.extendsF
  ∧ (ruleDestructureUnary n).const? = n.const?
  ∧ (ruleDestructureUnary n).enum? = n.enum? := by
  unfold ruleDestructureUnary
  repeat' split
  all_goals exact ⟨rfl, rfl, rfl, rfl, rfl, rfl, rfl, rfl, rfl, rfl⟩

theorem isArrayType_r2 (n : SNode) :
    isArrayType (ruleDestructureUnary n) = isArrayType n := by
  unfold isArrayType
  rw [(r2_proj n).1, hasType_r2, hasType_r2]

theorem isObjectType_r2 (n : SNode) :
    isObjectType (ruleDestructureUnary n) = isObjectType n := by
  unfold isObjectType
  rw [(r2_proj n).2.1, hasType_r2, hasType_r2]

theorem r2_type_shape (n : SNode) (l : List String)
    (h : (ruleDestructureUnary n).type = some (.many l)) : l.length ≠ 1 := by
  unfold ruleDestructureUnary at h
  split at h
  next => simp at h
  next hne =>
    intro hlen
    match l, hlen with
    | [t], _ => exact hne t (by rw [h])

theorem r3_proj (n : SNode) :
    (ruleRequiredDefault n).items = n.items
  ∧ (ruleRequiredDefault n).type = n.type
  ∧ (ruleRequiredDefault n).properties = n.properties
  ∧ (ruleRequiredDefault n).patternProperties = n.patternProperties
  ∧ (ruleRequiredDefault n).additionalProperties = n.additionalProperties
  ∧ (ruleRequiredDefault n).id = n.id
  ∧ (ruleRequiredDefault n).description = n.description
  ∧ (ruleRequiredDefault n).extendsF = n.extendsF
  ∧ (ruleRequiredDefault n).const? = n.const?
  ∧ (ruleRequiredDefault n).enum? = n.enum? := by
  unfold ruleRequiredDefault
  split
  all_goals exact ⟨rfl, rfl, rfl, rfl, rfl, rfl, rfl, rfl, rfl, rfl⟩

theorem r3_required (n : SNode) (h : isObjectType n = true) :
    ((ruleRequiredDefault n).required).isSome = true := by
  unfold ruleRequiredDefault
  split
  next => rfl
  next hc =>
    have hne : n.required ≠ none := fun hr => hc ⟨by simp [h], hr⟩
    cases hr : n.required with
    | none => exact absurd hr hne
    | some v => simp

theorem r4_proj (n : SNode) :
    (ruleRequiredFalse n).items = n.items
  ∧ (ruleRequiredFalse n).type = n.type
  ∧ (ruleRequiredFalse n).properties = n.properties
  ∧ (ruleRequiredFalse n).patternProperties = n.patternProperties
  ∧ (ruleRequiredFalse n).additionalProperties = n.additionalProperties
  ∧ (ruleRequiredFalse n).id = n.id
  ∧ (ruleRequiredFalse n).description = n.description
  ∧ (ruleRequiredFalse n).extendsF = n.extendsF
  ∧ (ruleRequiredFalse n).const? = n.const?
  ∧ (ruleRequiredFalse n).enum? = n.enum? := by
  unfold ruleRequiredFalse
  split
  all_goals exact ⟨rfl, rfl, rfl, rfl, rfl, rfl, rfl, rfl, rfl, rfl⟩

theorem r4_required_ne_false (n : SNode) :
    (ruleRequiredFalse n).required ≠ some (.rbool false) := by
  unfold ruleRequiredFalse
  split
  next => simp
  next h => simpa using h

theorem r4_required_isSome (n : SNode) (h : (n.required).isSome = true) :
    ((ruleRequiredFalse n).required).isSome = true := by
  unfold ruleRequiredFalse
  split
  next => rfl
  next => exact h

theorem r5_proj (n : SNode) :
    (ruleDefaultAP n).items = n.items
  ∧ (ruleDefaultAP n).type = n.type
  ∧ (ruleDefaultAP n).properties = n.properties
  ∧ (ruleDefaultAP n).patternProperties = n.patternProperties
  ∧ (ruleDefaultAP n).required = n.required
  ∧ (ruleDefaultAP n).id = n.id
  ∧ (ruleDefaultAP n).description = n.description
  ∧ (ruleDefaultAP n).extendsF = n.extendsF
  ∧ (ruleDefaultAP n).const? = n.const?
  ∧ (ruleDefaultAP n).enum? = n.enum? := by
  unfold ruleDefaultAP
  split
  all_goals exact ⟨rfl, rfl, rfl, rfl, rfl, rfl, rfl, rfl, rfl, rfl⟩

theorem r5_ap_isSome (n : SNode) (h : isObjectType n = true)
    (hp : n.patternProperties = none) :
    ((ruleDefaultAP n).additionalProperties).isSome = true := by
  unfold ruleDefaultAP
  split
  next => rfl
  next hc =>
    have hne : n.additionalProperties ≠ none := fun ha => hc ⟨by simp [h], ha, hp⟩
    cases ha : n.additionalProperties with
    | none => exact absurd ha hne
    | some v => simp

theorem r6_ok (fn : String) (n y : SNode) (h : ruleIdToDollarId fn n = .ok y) :
    strTruthy y.id = false
  ∧ y.items = n.items
  ∧ y.type = n.type
  ∧ y.properties = n.properties
  ∧ y.patternProperties = n.patternProperties
  ∧ y.additionalProperties = n.additionalProperties
  ∧ y.required = n.required
  ∧ y.description = n.description
  ∧ y.extendsF = n.extendsF
  ∧ y.const? = n.const?
  ∧ y.enum? = n.enum? := by
  unfold ruleIdToDollarId at h
  rw [if_neg (by simp [isSchemaLike])] at h
  split at h
  next => simp at h
  next hc =>
    split at h
    next hid =>
      rw [Except.ok.injEq] at h
      subst h
      exact ⟨rfl, rfl, rfl, rfl, rfl, rfl, rfl, rfl, rfl, rfl, rfl⟩
    next hid =>
      rw [Except.ok.injEq] at h
      subst h
      refine ⟨?_, rfl, rfl, rfl, rfl, rfl, rfl, rfl, rfl, rfl, rfl⟩
      simpa using hid

theorem r6_fix (fn : String) (n : SNode) (h : strTruthy n.id = false) :
    ruleIdToDollarId fn n = .ok n := by
  unfold ruleIdToDollarId
  rw [if_neg (by simp [isSchemaLike]), if_neg (by simp [h]), if_neg (by simp [h])]

theorem r7_proj (n : SNode) :
    (ruleEscape n).items = n.items
  ∧ (ruleEscape n).type = n.type
  ∧ (ruleEscape n).properties = n.properties
  ∧ (ruleEscape n).patternProperties = n.patternProperties
  ∧ (ruleEscape n).additionalProperties = n.additionalProperties
  ∧ (ruleEscape n).required = n.required
  ∧ (ruleEscape n).id = n.id
  ∧ (ruleEscape n).extendsF = n.extendsF
  ∧ (ruleEscape n).const? = n.const?
  ∧ (ruleEscape n).enum? = n.enum? := by
  unfold ruleEscape
  split
  all_goals exact ⟨rfl, rfl, rfl, rfl, rfl, rfl, rfl, rfl, rfl, rfl⟩

theorem r7_desc (n : SNode) :
    (ruleEscape n).description = n.description.map escS := by
  unfold ruleEscape
  split
  next d hd => rw [hd]; rfl
  next hd => rw [hd]; rfl

theorem r7_fix (n : SNode) (h : ∀ d, n.description = some d → escS d = d) :
    ruleEscape n = n := by
  unfold ruleEscape
  split
  next d hd =>
    rw [h d hd, ← hd]
  next => rfl

theorem arrFalse_items (n : SNode) (h : isArrayType n = false) : n.items = none := by
  unfold isArrayType at h
  cases hi : n.items with
  | none => rfl
  | some v => rw [hi] at h; simp at h

theorem r8_fix (n : SNode) (h : isArrayType n = false) : ruleJSDocItems n = n := by
  unfold ruleJSDocItems
  rw [if_pos (by simp [h])]

theorem r9_fix (n : SNode) (h : isArrayType n = false) : ruleRemoveMinMax n = n := by
  unfold ruleRemoveMinMax
  rw [if_pos (by simp [h])]

theorem r10_fix (n : SNode) (h : isArrayType n = false) :
    ruleNormalizeMinItems n = n := by
  unfold ruleNormalizeMinItems
  rw [if_pos (by simp [h])]

theorem r11_fix (n : SNode) (h : isArrayType n = false) :
    ruleRemoveBigMaxItems n = n := by
  unfold ruleRemoveBigMaxItems
  rw [if_pos (by simp [h])]

theorem r12_fix (n : SNode) (h : n.items = none) :
    ruleNormalizeItems n = .ok n := by
  unfold ruleNormalizeItems
  simp [h]

theorem r13_proj (n : SNode) :
    (ruleRemoveEmptyExtends n).items = n.items
  ∧ (ruleRemoveEmptyExtends n).type = n.type
  ∧ (ruleRemoveEmptyExtends n).properties = n.properties
  ∧ (ruleRemoveEmptyExtends n).patternProperties = n.patternProperties
  ∧ (ruleRemoveEmptyExtends n).additionalProperties = n.additionalProperties
  ∧ (ruleRemoveEmptyExtends n).required = n.required
  ∧ (ruleRemoveEmptyExtends n).id = n.id
  ∧ (ruleRemoveEmptyExtends n).description = n.description
  ∧ (ruleRemoveEmptyExtends n).const? = n.const?
  ∧ (ruleRemoveEmptyExtends n).enum? = n.enum? := by
  unfold ruleRemoveEmptyExtends
  repeat' split
  all_goals exact ⟨rfl, rfl, rfl, rfl, rfl, rfl, rfl, rfl, rfl, rfl⟩

theorem r14_proj (n : SNode) :
    (ruleExtendsArray n).items = n.items
  ∧ (ruleExtendsArray n).type = n.type
  ∧ (ruleExtendsArray n).properties = n.properties
  ∧ (ruleExtendsArray n).patternProperties = n.patternProperties
  ∧ (ruleExtendsArray n).additionalProperties = n.additionalProperties
  ∧ (ruleExtendsArray n).required = n.required
  ∧ (ruleExtendsArray n).id = n.id
  ∧ (ruleExtendsArray n).description = n.description
  ∧ (ruleExtendsArray n).const? = n.const?
  ∧ (ruleExtendsArray n).enum? = n.enum? := by
  unfold ruleExtendsArray
  repeat' split
  all_goals exact ⟨rfl, rfl, rfl, rfl, rfl, rfl, rfl, rfl, rfl, rfl⟩

theorem r13_ext (n : SNode) :
    (ruleRemoveEmptyExtends n).extendsF = none
  ∨ (∃ v, (ruleRemoveEmptyExtends n).extendsF = some (.single v))
  ∨ (∃ l, (ruleRemoveEmptyExtends n).extendsF = some (.list l) ∧ l ≠ []) := by
  cases he : n.extendsF with
  | none => left; simp only [ruleRemoveEmptyExtends, he]
  | some v =>
    cases v with
    | nullv => left; simp only [ruleRemoveEmptyExtends, he]
    | single w =>
      right; left
      exact ⟨w, by simp only [ruleRemoveEmptyExtends, he]⟩
    | list l =>
      cases l with
      | nil => left; simp only [ruleRemoveEmptyExtends, he]
      | cons a tl =>
        right; right
        refine ⟨a :: tl, ?_, by simp⟩
        simp only [ruleRemoveEmptyExtends, he]

theorem r14_ext_none (x : SNode) (h : x.extendsF = none) :
    (ruleExtendsArray x).extendsF = none := by
  simp only [ruleExtendsArray, h]

theorem r14_ext_single (x : SNode) (v : SVal) (h : x.extendsF = some (.single v)) :
    (ruleExtendsArray x).extendsF = some (.list [v]) := by
  simp only [ruleExtendsArray, h]

theorem r14_ext_list (x : SNode) (l : List SVal) (h : x.extendsF = some (.list l)) :
    (ruleExtendsArray x).extendsF = some (.list l) := by
  simp only [ruleExtendsArray, h]

theorem ext_shape_r14_r13 (n : SNode) :
    (ruleExtendsArray (ruleRemoveEmptyExtends n)).extendsF = none
  ∨ ∃ l, (ruleExtendsArray (ruleRemoveEmptyExtends n)).extendsF = some (.list l)
       ∧ l ≠ [] := by
  rcases r13_ext n with h | ⟨v, h⟩ | ⟨l, h, hne⟩
  · exact Or.inl (r14_ext_none _ h)
  · exact Or.inr ⟨[v], r14_ext_single _ v h, by simp⟩
  · exact Or.inr ⟨l, r14_ext_list _ l h, hne⟩

theorem r13_fix (n : SNode)
    (h : n.extendsF = none ∨ ∃ l, n.extendsF = some (.list l) ∧ l ≠ []) :
    ruleRemoveEmptyExtends n = n := by
  unfold ruleRemoveEmptyExtends
  rcases h with h | ⟨l, h, hne⟩
  · rw [h]
  · rw [h]
    cases l with
    | nil => exact absurd rfl hne
    | cons a tl => rfl

theorem r14_fix (n : SNode)
    (h : n.extendsF = none ∨ ∃ l, n.extendsF = some (.list l) ∧ l ≠ []) :
    ruleExtendsArray n = n := by
  unfold ruleExtendsArray
  rcases h with h | ⟨l, h, hne⟩ <;> rw [h]

theorem r15_proj (n : SNode) :
    (ruleConstToEnum n).items = n.items
  ∧ (ruleConstToEnum n).type = n.type
  ∧ (ruleConstToEnum n).properties = n.properties
  ∧ (ruleConstToEnum n).patternProperties = n.patternProperties
  ∧ (ruleConstToEnum n).additionalProperties = n.additionalProperties
  ∧ (ruleConstToEnum n).required = n.required
  ∧ (ruleConstToEnum n).id = n.id
  ∧ (ruleConstToEnum n).description = n.description
  ∧ (ruleConstToEnum n).extendsF = n.extendsF
  ∧ (ruleConstToEnum n).const? = none := by
  unfold ruleConstToEnum
  split
  next c hc => exact ⟨rfl, rfl, rfl, rfl, rfl, rfl, rfl, rfl, rfl, rfl⟩
  next hc => exact ⟨rfl, rfl, rfl, rfl, rfl, rfl, rfl, rfl, rfl, hc⟩

theorem r15_fix (n : SNode) (h : n.const? = none) : ruleConstToEnum n = n := by
  unfold ruleConstToEnum
  rw [h]

theorem isArrayType_eq (x y : SNode) (hi : x.items = y.items)
    (ht : x.type = y.type) : isArrayType x = isArrayType y := by
  unfold isArrayType hasType
  rw [hi, ht]

theorem isObjectType_eq (x y : SNode) (hp : x.properties = y.properties)
    (ht : x.type = y.type) : isObjectType x = isObjectType y := by
  unfold isObjectType hasType
  rw [hp, ht]

theorem r1_fix (m : SNode)
    (h : ¬(enumHasNull m = true ∧ typeManyHasNull m = true)) :
    ruleRemoveNullType m = m := by
  unfold ruleRemoveNullType
  split
  next vs ts he ht =>
    rw [if_neg]
    intro hc
    refine h ⟨?_, ?_⟩
    · simp only [enumHasNull, he]
      exact hc.1
    · simp only [typeManyHasNull, ht]
      exact hc.2
  next => rfl

theorem r2_fix (m : SNode)
    (h : ∀ l, m.type = some (.many l) → l.length ≠ 1) :
    ruleDestructureUnary m = m := by
  unfold ruleDestructureUnary
  split
  next t ht => exact (h [t] ht (by simp)).elim
  next => rfl

theorem r3_fix (m : SNode)
    (h : isObjectType m = true → (m.required).isSome = true) :
    ruleRequiredDefault m = m := by
  unfold ruleRequiredDefault
  rw [if_neg]
  intro hc
  have := h (by simpa using hc.1)
  rw [hc.2] at this
  simp at this

theorem r4_fix (m : SNode) (h : m.required ≠ some (.rbool false)) :
    ruleRequiredFalse m = m := by
  unfold ruleRequiredFalse
  rw [if_neg h]

theorem r5_fix (m : SNode)
    (h : isObjectType m = true → m.patternProperties = none →
      (m.additionalProperties).isSome = true) :
    ruleDefaultAP m = m := by
  unfold ruleDefaultAP
  rw [if_neg]
  intro hc
  have := h (by simpa using hc.1) hc.2.2
  rw [hc.2.1] at this
  simp at this

/-- C2 amended: the pipeline is idempotent at every node that is not
array-like and whose once-normalized form does not pair a null-containing
`enum` with a multi-valued `type` containing "null" (the configuration
rule 1 rewrites, which the const-to-enum rule — last in the pipeline — can
create from `const: null`); array-like nodes break idempotence through the
`minItems` default feeding the bounds-comment rule (see the
counterexample). -/
theorem c2_pipeline_idempotent_amended :
    ∀ fn n m, isArrayType n = false →
      pipelineNode fn n = .ok m →
      ¬(enumHasNull m = true ∧ typeManyHasNull m = true) →
      pipelineNode fn m = .ok m := by
  intro fn n m hna hp hbad
  set q1 := ruleRemoveNullType n with hq1
  set q2 := ruleDestructureUnary q1 with hq2
  set q3 := ruleRequiredDefault q2 with hq3
  set q4 := ruleRequiredFalse q3 with hq4
  set q5 := ruleDefaultAP q4 with hq5
  unfold pipelineNode at hp
  cases h6 : ruleIdToDollarId fn q5 with
  | error e => rw [h6] at hp; simp at hp
  | ok a =>
    rw [h6] at hp
    simp only at hp
    obtain ⟨hid_a, ai, at', ap', app, aap, ar, ad, ae, ac, _⟩ := r6_ok fn q5 a h6
    obtain ⟨b1i, b1p, b1pp, b1ap, b1r, b1id, b1d, b1e, b1c, _⟩ := r1_proj n
    obtain ⟨b2i, b2p, b2pp, b2ap, b2r, b2id, b2d, b2e, b2c, _⟩ := r2_proj q1
    obtain ⟨b3i, b3t, b3p, b3pp, b3ap, b3id, b3d, b3e, b3c, _⟩ := r3_proj q2
    obtain ⟨b4i, b4t, b4p, b4pp, b4ap, b4id, b4d, b4e, b4c, _⟩ := r4_proj q3
    obtain ⟨b5i, b5t, b5p, b5pp, b5r, b5id, b5d, b5e, b5c, _⟩ := r5_proj q4
    obtain ⟨b7i, b7t, b7p, b7pp, b7ap, b7r, b7id, b7e, b7c, _⟩ := r7_proj a
    -- the non-array property propagates to `ruleEscape a`
    have hna2 : isArrayType q2 = false := by
      rw [hq2, isArrayType_r2, hq1, isArrayType_r1]; exact hna
    have hna5 : isArrayType q5 = false := by
      rw [isArrayType_eq q5 q4 b5i b5t, isArrayType_eq q4 q3 b4i b4t,
        isArrayType_eq q3 q2 b3i b3t]
      exact hna2
    have hna_a : isArrayType a = false := by
      rw [isArrayType_eq a q5 ai at']; exact hna5
    have hna7 : isArrayType (ruleEscape a) = false := by
      rw [isArrayType_eq _ a b7i b7t]; exact hna_a
    rw [r8_fix _ hna7, r9_fix _ hna7, r10_fix _ hna7, r11_fix _ hna7,
      r12_fix _ (arrFalse_items _ hna7)] at hp
    simp only at hp
    rw [Except.ok.injEq] at hp
    set w := ruleEscape a with hw
    set e13 := ruleRemoveEmptyExtends w with he13
    set e14 := ruleExtendsArray e13 with he14
    set M := ruleConstToEnum e14 with hM
    -- facts about M
    obtain ⟨c15i, c15t, c15p, c15pp, c15ap, c15r, c15id, c15d, c15e, c15c⟩ := r15_proj e14
    obtain ⟨c14i, c14t, c14p, c14pp, c14ap, c14r, c14id, c14d, c14c, _⟩ := r14_proj e13
    obtain ⟨c13i, c13t, c13p, c13pp, c13ap, c13r, c13id, c13d, c13c, _⟩ := r13_proj w
    have hMitems : M.items = a.items := by rw [c15i, c14i, c13i, b7i]
    have hMtype : M.type = q2.type := by rw [c15t, c14t, c13t, b7t, at', b5t, b4t, b3t]
    have hMprops : M.properties = q2.properties := by
      rw [c15p, c14p, c13p, b7p, ap', b5p, b4p, b3p]
    have hMpp : M.patternProperties = q4.patternProperties := by
      rw [c15pp, c14pp, c13pp, b7pp, app, b5pp]
    have hMap : M.additionalProperties = q5.additionalProperties := by
      rw [c15ap, c14ap, c13ap, b7ap, aap]
    have hMreq : M.required = q4.required := by
      rw [c15r, c14r, c13r, b7r, ar, b5r]
    have hMid : strTruthy M.id = false := by
      rw [c15id, c14id, c13id, b7id]; exact hid_a
    have hMarr : isArrayType M = false := by
      rw [isArrayType_eq M a hMitems (by rw [hMtype, ← b3t, ← b4t, ← b5t, ← at'])]
      exact hna_a
    have hMobj : isObjectType M = isObjectType q2 :=
      isObjectType_eq M q2 hMprops hMtype
    have f_type_shape : ∀ l, M.type = some (.many l) → l.length ≠ 1 := by
      intro l hl
      exact r2_type_shape q1 l (by rw [← hMtype]; exact hl)
    have f_req_ne : M.required ≠ some (.rbool false) := by
      rw [hMreq]; exact r4_required_ne_false q3
    have f_req_obj : isObjectType M = true → (M.required).isSome = true := by
      intro hobj
      rw [hMreq]
      apply r4_required_isSome
      apply r3_required
      rw [← hMobj]
      exact hobj
    have f_ap : isObjectType M = true → M.patternProperties = none →
        (M.additionalProperties).isSome = true := by
      intro hobj hpp
      rw [hMap]
      apply r5_ap_isSome
      · rw [isObjectType_eq q4 q2 (by rw [b4p, b3p]) (by rw [b4t, b3t]), ← hMobj]
        exact hobj
      · rw [← hMpp]; exact hpp
    have f_ext : M.extendsF = none ∨ ∃ l, M.extendsF = some (.list l) ∧ l ≠ [] := by
      rw [c15e]
      exact ext_shape_r14_r13 w
    have f_desc : ∀ d, M.description = some d → escS d = d := by
      intro d hd
      rw [c15d, c14d, c13d, r7_desc a] at hd
      cases hda : a.description with
      | none => rw [hda] at hd; simp at hd
      | some d0 =>
        rw [hda] at hd
        simp only [Option.map_some', Option.some.injEq] at hd
        rw [← hd, escS_idem]
    -- rebuild: every rule fixes M
    rw [← hp] at hbad
    have s1 := r1_fix M hbad
    have s2 := r2_fix M f_type_shape
    have s3 := r3_fix M f_req_obj
    have s4 := r4_fix M f_req_ne
    have s5 := r5_fix M f_ap
    have s6 := r6_fix fn M hMid
    have s7 := r7_fix M f_desc
    rw [← hp]
    unfold pipelineNode
    rw [s1, s2, s3, s4, s5, s6]
    try simp only
    rw [s7, r8_fix M hMarr, r9_fix M hMarr, r10_fix M hMarr, r11_fix M hMarr,
      r12_fix M (arrFalse_items M hMarr)]
    try simp only
    rw [r13_fix M f_ext, r14_fix M f_ext, r15_fix M c15c]

/-- C2 witness: the pipeline image of an ordinary object node is a fixed
point of the pipeline. -/
theorem c2_pipeline_idempotent_amended_witness :
    pipelineNode "f.json" c2WitMid = .ok c2WitMid :=
  c2_pipeline_idempotent_amended "f.json" c2WitNode c2WitMid (by decide)
    (by decide) (by decide)
